import Mathlib

/-!
Shallow embedding of the `logGPT` component-lending backend
(`src/backend/app`), covering the parts the specification's testable
properties are about:

* the data model (`Component`, `Transaction`, with the status enums of
  `app/models/component.py` and `app/models/transaction.py`);
* the mutating route handlers of `app/routes/components.py`,
  `app/routes/transactions.py` and `app/routes/kiosk.py`, embedded as
  pure functions `DB → … → Except ApiError (DB × response)`; the Mongo
  collection operations `find_one`, `update_one`, `insert_one`,
  `delete_one` and `update_many` are embedded as `List.find?`,
  `replaceFirst`, append, `removeFirst` and `List.map` over the
  document lists, which matches their sequential (single-writer)
  semantics on the natural collection order;
* the pure chat helpers `extract_query_intent` and
  `generate_smart_fallback` of `app/routes/chat.py` together with the
  context builders they consume.

Representation choices: Mongo ObjectIds are embedded as `Nat` (every id
in scope is valid, mirroring the `ObjectId.is_valid` guard holding);
timestamps are integers (a point on a day-granularity time line, so
`timedelta(days=n)` is `+ n` and `strftime` is abstracted to `toString`);
Python ints are `Int`.  The free-form `specifications` dict and the
image URL of a component are not modelled: no handler in scope reads
them.  Python's `str.lower`/`str.upper` are embedded with ASCII case
mapping (`Char.toLower`/`Char.toUpper`), which agrees with CPython on
the ASCII strings the chat vocabulary and roll numbers consist of.
-/

namespace LogGPT

/-! ### Generic list helpers (Mongo `update_one` / `delete_one` on the first match) -/

/-- Replace the first element satisfying `p` by its image under `f`
(the embedding of Mongo `update_one`). -/
def replaceFirst (p : α → Bool) (f : α → α) : List α → List α
  | [] => []
  | x :: xs => if p x then f x :: xs else x :: replaceFirst p f xs

/-- Remove the first element satisfying `p` (the embedding of Mongo
`delete_one`). -/
def removeFirst (p : α → Bool) : List α → List α
  | [] => []
  | x :: xs => if p x then xs else x :: removeFirst p xs

/-! ### String helpers (Python `in`, `.lower()`, `.upper()`, `re.findall`) -/

/-- `isPrefixOfL sub s` : `sub` is a prefix of `s` (on character lists). -/
def isPrefixOfL : List Char → List Char → Bool
  | [], _ => true
  | _ :: _, [] => false
  | a :: as, b :: bs => a == b && isPrefixOfL as bs

/-- `containsL sub s` : `sub` occurs as a contiguous substring of `s`
(the embedding of Python's `sub in s`). -/
def containsL (sub : List Char) : List Char → Bool
  | [] => isPrefixOfL sub []
  | c :: cs => isPrefixOfL sub (c :: cs) || containsL sub cs

/-- Python `sub in s` on strings. -/
def containsSub (sub s : String) : Bool :=
  containsL sub.data s.data

/-- Python `str.lower()` (ASCII). -/
def lowerStr (s : String) : String :=
  String.mk (s.data.map Char.toLower)

/-- Python `str.upper()` (ASCII). -/
def upperStr (s : String) : String :=
  String.mk (s.data.map Char.toUpper)

/-! ### Status enums (`app/models`) -/

/-- `TransactionStatus` of `app/models/transaction.py`. -/
inductive TransactionStatus where
  | pending
  | approved
  | issued
  | returned
  | overdue
  | rejected
deriving Repr, DecidableEq

/-- `ComponentStatus` of `app/models/component.py`. -/
inductive ComponentStatus where
  | available
  | issued
  | maintenance
  | retired
deriving Repr, DecidableEq

instance : BEq TransactionStatus := ⟨fun a b => decide (a = b)⟩

instance : BEq ComponentStatus := ⟨fun a b => decide (a = b)⟩

/-! ### Documents -/

/-- A document of the `components` collection (fields written by
`create_component`; `specifications`/`image_url` omitted, unread in scope). -/
structure Component where
  cid : Nat
  name : String
  description : Option String
  category : String
  totalQuantity : Int
  availableQuantity : Int
  status : ComponentStatus
  location : Option String
  tags : List String
  createdBy : String
  createdAt : Int
  updatedAt : Int
deriving Repr, DecidableEq

/-- A document of the `transactions` collection.  `rollNumber` is only
present on kiosk-created documents (`kiosk.py` `borrow_component`). -/
structure Transaction where
  tid : Nat
  componentId : Nat
  componentName : String
  userId : String
  userName : String
  userEmail : String
  quantity : Int
  purpose : Option String
  status : TransactionStatus
  expectedReturnDate : Option Int
  issueDate : Option Int
  dueDate : Option Int
  returnDate : Option Int
  returnCondition : Option String
  approvedBy : Option String
  adminNotes : Option String
  rollNumber : Option String
  createdAt : Int
  updatedAt : Int
deriving Repr, DecidableEq

/-- The database state: the two collections the claims are about, plus
fresh-id counters standing in for ObjectId generation. -/
structure DB where
  components : List Component
  transactions : List Transaction
  nextCid : Nat
  nextTid : Nat
deriving Repr, DecidableEq

/-- Error responses (`HTTPException`). `internal` stands for an
uncaught Python exception (500). -/
inductive ApiError where
  | badRequest (detail : String)
  | notFound (detail : String)
  | validation (detail : String)
  | internal (detail : String)
deriving Repr, DecidableEq

/-- `db.components.find_one({"_id": cid})`. -/
def findComponent (db : DB) (cid : Nat) : Option Component :=
  db.components.find? (fun c => c.cid == cid)

/-- `db.transactions.find_one({"_id": tid})`. -/
def findTransaction (db : DB) (tid : Nat) : Option Transaction :=
  db.transactions.find? (fun t => t.tid == tid)

/-- Python `str.strip()`. -/
def stripStr (s : String) : String :=
  String.mk (((s.data.dropWhile Char.isWhitespace).reverse.dropWhile
    Char.isWhitespace).reverse)

/-! ### Request payloads (`app/models`, kiosk request models) -/

/-- `ComponentCreate` (= `ComponentBase`) of `app/models/component.py`. -/
structure ComponentCreate where
  name : String
  description : Option String
  category : String
  totalQuantity : Int
  availableQuantity : Int
  location : Option String
  tags : List String
deriving Repr, DecidableEq

/-- `ComponentUpdate` of `app/models/component.py` (all fields optional;
`update_component` skips `None`-valued fields). -/
structure ComponentUpdate where
  name : Option String
  description : Option String
  category : Option String
  totalQuantity : Option Int
  availableQuantity : Option Int
  location : Option String
  tags : Option (List String)
  status : Option ComponentStatus
deriving Repr, DecidableEq

/-- `TransactionCreate` (= `TransactionBase`) of `app/models/transaction.py`. -/
structure TransactionCreate where
  componentId : Nat
  quantity : Int
  purpose : Option String
  expectedReturnDate : Option Int
deriving Repr, DecidableEq

/-- `BorrowRequest` of `app/routes/kiosk.py`. -/
structure BorrowRequest where
  rollNumber : String
  name : String
  componentId : Nat
  quantity : Int
  purpose : Option String
deriving Repr, DecidableEq

/-- The authenticated caller (`current_user`), as read by the handlers. -/
structure Caller where
  id : String
  name : String
  email : String
deriving Repr, DecidableEq

/-! ### Route handlers

Each handler is a pure function returning `Except ApiError (DB × resp)`.
Every `raise HTTPException` in the source happens before any collection
write, so an `.error` result leaves the state unchanged by construction,
exactly as in the source. -/

/-- `create_component` of `app/routes/components.py` (admin only).
Pydantic validation of `ComponentCreate` (name length, both quantities
`ge=0`) runs before the handler body. -/
def create_component (db : DB) (data : ComponentCreate) (user : Caller)
    (now : Int) : Except ApiError (DB × Component) :=
  if data.name.length < 1 || data.name.length > 200 then
    .error (.validation "name length out of range")
  else if data.totalQuantity < 0 then
    .error (.validation "total_quantity must be >= 0")
  else if data.availableQuantity < 0 then
    .error (.validation "available_quantity must be >= 0")
  else
    let initialStatus :=
      if data.availableQuantity > 0 then ComponentStatus.available
      else ComponentStatus.issued
    let comp : Component := {
      cid := db.nextCid
      name := data.name
      description := data.description
      category := data.category
      totalQuantity := data.totalQuantity
      availableQuantity := data.availableQuantity
      status := initialStatus
      location := data.location
      tags := data.tags.map lowerStr
      createdBy := user.id
      createdAt := now
      updatedAt := now }
    .ok ({ db with components := db.components ++ [comp],
                   nextCid := db.nextCid + 1 }, comp)

/-- The `$set` document built by `update_component`, applied to a
component document. -/
def applyComponentUpdate (u : ComponentUpdate) (now : Int) (c : Component) :
    Component :=
  { c with
    name := u.name.getD c.name
    description := (u.description.map some).getD c.description
    category := u.category.getD c.category
    totalQuantity := u.totalQuantity.getD c.totalQuantity
    availableQuantity := u.availableQuantity.getD c.availableQuantity
    location := (u.location.map some).getD c.location
    tags := (u.tags.map (List.map lowerStr)).getD c.tags
    status := u.status.getD c.status
    updatedAt := now }

/-- `update_component` of `app/routes/components.py` (admin only). -/
def update_component (db : DB) (cid : Nat) (u : ComponentUpdate)
    (now : Int) : Except ApiError (DB × Component) :=
  if (match u.name with
      | some n => n.length < 1 || n.length > 200
      | none => false) then
    .error (.validation "name length out of range")
  else if (match u.totalQuantity with | some q => decide (q < 0) | none => false) then
    .error (.validation "total_quantity must be >= 0")
  else if (match u.availableQuantity with | some q => decide (q < 0) | none => false) then
    .error (.validation "available_quantity must be >= 0")
  else
    match findComponent db cid with
    | none => .error (.notFound "Component not found")
    | some c =>
      let comps' := replaceFirst (fun x => x.cid == cid)
        (applyComponentUpdate u now) db.components
      .ok ({ db with components := comps' }, applyComponentUpdate u now c)

/-- `delete_component` of `app/routes/components.py` (admin only): the
active-transaction guard runs before the delete. -/
def delete_component (db : DB) (cid : Nat) : Except ApiError DB :=
  match db.transactions.find? (fun t =>
      t.componentId == cid &&
      (t.status == TransactionStatus.pending ||
       t.status == TransactionStatus.approved ||
       t.status == TransactionStatus.issued)) with
  | some _ => .error (.badRequest "Cannot delete component with active transactions")
  | none =>
    match findComponent db cid with
    | none => .error (.notFound "Component not found")
    | some _ =>
      .ok { db with components := removeFirst (fun c => c.cid == cid) db.components }

/-- The `transaction_doc` dict inserted by `create_transaction`. -/
def pendingTransactionDoc (db : DB) (data : TransactionCreate)
    (user : Caller) (now : Int) (component : Component) : Transaction :=
  { tid := db.nextTid
    componentId := data.componentId
    componentName := component.name
    userId := user.id
    userName := user.name
    userEmail := user.email
    quantity := data.quantity
    purpose := data.purpose
    status := TransactionStatus.pending
    expectedReturnDate := data.expectedReturnDate
    issueDate := none
    dueDate := none
    returnDate := none
    returnCondition := none
    approvedBy := none
    adminNotes := none
    rollNumber := none
    createdAt := now
    updatedAt := now }

/-- `create_transaction` of `app/routes/transactions.py`.  Pydantic
validates `quantity ≥ 1`; the handler checks existence and availability
and inserts a `pending` document, touching no component. -/
def create_transaction (db : DB) (data : TransactionCreate) (user : Caller)
    (now : Int) : Except ApiError (DB × Transaction) :=
  if data.quantity < 1 then
    .error (.validation "quantity must be >= 1")
  else
    match findComponent db data.componentId with
    | none => .error (.notFound "Component not found")
    | some component =>
      if component.availableQuantity < data.quantity then
        .error (.badRequest
          ("Insufficient quantity. Only " ++
           toString component.availableQuantity ++ " available."))
      else
        let t := pendingTransactionDoc db data user now component
        .ok ({ db with transactions := db.transactions ++ [t],
                       nextTid := db.nextTid + 1 }, t)

/-- `approve_transaction` of `app/routes/transactions.py` (admin only).
`due_days` is validated by `Query(7, ge=1, le=90)`.  The component
update is a bare `$inc` (no `updated_at`). -/
def approve_transaction (db : DB) (tid : Nat) (dueDays : Int)
    (admin : Caller) (now : Int) : Except ApiError (DB × Transaction) :=
  if dueDays < 1 || dueDays > 90 then
    .error (.validation "due_days out of range")
  else
    match findTransaction db tid with
    | none => .error (.notFound "Transaction not found")
    | some t =>
      if t.status ≠ TransactionStatus.pending then
        .error (.badRequest "Only pending transactions can be approved")
      else
        match findComponent db t.componentId with
        | none => .error (.internal "component lookup returned None")
        | some component =>
          if component.availableQuantity < t.quantity then
            .error (.badRequest "Insufficient component quantity")
          else
            let setTx : Transaction → Transaction := fun x =>
              { x with
                status := TransactionStatus.issued
                issueDate := some now
                dueDate := some (now + dueDays)
                approvedBy := some admin.id
                updatedAt := now }
            let txs' := replaceFirst (fun x => x.tid == tid) setTx db.transactions
            let comps' := replaceFirst (fun c => c.cid == t.componentId)
              (fun c => { c with availableQuantity := c.availableQuantity - t.quantity })
              db.components
            .ok ({ db with transactions := txs', components := comps' }, setTx t)

/-- `reject_transaction` of `app/routes/transactions.py` (admin only). -/
def reject_transaction (db : DB) (tid : Nat) (reason : Option String)
    (now : Int) : Except ApiError (DB × Transaction) :=
  match findTransaction db tid with
  | none => .error (.notFound "Transaction not found")
  | some t =>
    if t.status ≠ TransactionStatus.pending then
      .error (.badRequest "Only pending transactions can be rejected")
    else
      let setTx : Transaction → Transaction := fun x =>
        { x with
          status := TransactionStatus.rejected
          adminNotes := reason
          updatedAt := now }
      let txs' := replaceFirst (fun x => x.tid == tid) setTx db.transactions
      .ok ({ db with transactions := txs' }, setTx t)

/-- `return_component` of `app/routes/transactions.py` (admin only).
`condition` is validated by `Query(..., min_length=1)`.  The component
update is a bare `$inc` (no `updated_at`). -/
def return_component (db : DB) (tid : Nat) (condition : String)
    (now : Int) : Except ApiError (DB × Transaction) :=
  if condition.length < 1 then
    .error (.validation "condition must be non-empty")
  else
    match findTransaction db tid with
    | none => .error (.notFound "Transaction not found")
    | some t =>
      if t.status ≠ TransactionStatus.issued ∧
         t.status ≠ TransactionStatus.overdue then
        .error (.badRequest "Only issued or overdue components can be returned")
      else
        let setTx : Transaction → Transaction := fun x =>
          { x with
            status := TransactionStatus.returned
            returnDate := some now
            returnCondition := some condition
            updatedAt := now }
        let txs' := replaceFirst (fun x => x.tid == tid) setTx db.transactions
        let comps' := replaceFirst (fun c => c.cid == t.componentId)
          (fun c => { c with availableQuantity := c.availableQuantity + t.quantity })
          db.components
        .ok ({ db with transactions := txs', components := comps' }, setTx t)

/-- The `transaction` dict inserted by the kiosk `borrow_component`
(issued immediately, 7-day due period, roll-number pseudo-identity). -/
def kioskTransactionDoc (db : DB) (req : BorrowRequest) (now : Int)
    (component : Component) : Transaction :=
  { tid := db.nextTid
    componentId := req.componentId
    componentName := component.name
    userId := "student_" ++ upperStr req.rollNumber
    userName := stripStr req.name
    userEmail := lowerStr req.rollNumber ++ "@student.local"
    quantity := req.quantity
    purpose := req.purpose
    status := TransactionStatus.issued
    expectedReturnDate := none
    issueDate := some now
    dueDate := some (now + 7)
    returnDate := none
    returnCondition := none
    approvedBy := none
    adminNotes := none
    rollNumber := some (upperStr req.rollNumber)
    createdAt := now
    updatedAt := now }

/-- `borrow_component` of `app/routes/kiosk.py` (login-free): stock
check, then the same-roll-same-component duplicate guard, then a direct
insert with status `issued` and `due_date = now + 7 days`. -/
def borrow_component (db : DB) (req : BorrowRequest) (now : Int) :
    Except ApiError (DB × Transaction) :=
  if req.rollNumber.length < 1 || req.rollNumber.length > 50 then
    .error (.validation "roll_number length out of range")
  else if req.name.length < 1 || req.name.length > 100 then
    .error (.validation "name length out of range")
  else if req.quantity < 1 then
    .error (.validation "quantity must be >= 1")
  else
    match findComponent db req.componentId with
    | none => .error (.notFound "Component not found")
    | some component =>
      if component.availableQuantity < req.quantity then
        .error (.badRequest
          ("Not enough stock. Available: " ++
           toString component.availableQuantity))
      else
        match db.transactions.find? (fun t =>
            t.rollNumber == some (upperStr req.rollNumber) &&
            t.componentId == req.componentId &&
            t.status == TransactionStatus.issued) with
        | some existing =>
          .error (.badRequest
            ("You already have this component borrowed (Qty: " ++
             toString existing.quantity ++ "). Please return it first."))
        | none =>
          let t := kioskTransactionDoc db req now component
          let comps' := replaceFirst (fun c => c.cid == req.componentId)
            (fun c => { c with availableQuantity := c.availableQuantity - req.quantity,
                               updatedAt := now })
            db.components
          .ok ({ db with transactions := db.transactions ++ [t],
                         components := comps',
                         nextTid := db.nextTid + 1 }, t)

/-- `return_component` of `app/routes/kiosk.py`: looks the transaction
up by id *and* status `issued` in one query. -/
def kiosk_return_component (db : DB) (tid : Nat) (condition : Option String)
    (now : Int) : Except ApiError (DB × Transaction) :=
  match db.transactions.find? (fun t =>
      t.tid == tid && t.status == TransactionStatus.issued) with
  | none => .error (.notFound "Transaction not found or already returned")
  | some t =>
    let setTx : Transaction → Transaction := fun x =>
      { x with
        status := TransactionStatus.returned
        returnDate := some now
        returnCondition := condition
        updatedAt := now }
    let txs' := replaceFirst (fun x => x.tid == tid) setTx db.transactions
    let comps' := replaceFirst (fun c => c.cid == t.componentId)
      (fun c => { c with availableQuantity := c.availableQuantity + t.quantity,
                         updatedAt := now })
      db.components
    .ok ({ db with transactions := txs', components := comps' }, setTx t)

/-- `due_date` is present and strictly before `now`
(Mongo `{"due_date": {"$lt": now}}`: absent fields never match). -/
def dueBefore (now : Int) (t : Transaction) : Bool :=
  match t.dueDate with
  | some d => d < now
  | none => false

/-- `get_overdue_transactions` of `app/routes/transactions.py` (admin
only): `update_many` rewrites every `issued` transaction past its due
date to `overdue` as a side effect of the read, then the rewritten
documents are listed. -/
def get_overdue_transactions (db : DB) (now : Int) :
    Except ApiError (DB × List Transaction) :=
  let txs' := db.transactions.map (fun t =>
    if t.status == TransactionStatus.issued && dueBefore now t then
      { t with status := TransactionStatus.overdue, updatedAt := now }
    else t)
  let db' := { db with transactions := txs' }
  .ok (db', db'.transactions.filter (fun t =>
    t.status == TransactionStatus.overdue && dueBefore now t))

/-- `get_transaction` of `app/routes/transactions.py`: a pure read
returning the stored document (in particular its stored `status`). -/
def get_transaction (db : DB) (tid : Nat) : Except ApiError Transaction :=
  match findTransaction db tid with
  | none => .error (.notFound "Transaction not found")
  | some t => .ok t

/-! ### The operation alphabet and the state-transition function -/

/-- One call to a state-touching endpoint, with its request data and
the call time. -/
inductive Op where
  | createComponent (data : ComponentCreate) (user : Caller) (now : Int)
  | updateComponent (cid : Nat) (u : ComponentUpdate) (now : Int)
  | deleteComponent (cid : Nat)
  | createTransaction (data : TransactionCreate) (user : Caller) (now : Int)
  | approve (tid : Nat) (dueDays : Int) (admin : Caller) (now : Int)
  | reject (tid : Nat) (reason : Option String) (now : Int)
  | adminReturn (tid : Nat) (condition : String) (now : Int)
  | kioskBorrow (req : BorrowRequest) (now : Int)
  | kioskReturn (tid : Nat) (condition : Option String) (now : Int)
  | listOverdue (now : Int)
deriving Repr, DecidableEq

/-- Run one endpoint call: on success the new state, on any error
response the unchanged state (every source handler raises before it
writes). -/
def applyOp (db : DB) : Op → DB
  | .createComponent data user now =>
    match create_component db data user now with
    | .ok (db', _) => db' | .error _ => db
  | .updateComponent cid u now =>
    match update_component db cid u now with
    | .ok (db', _) => db' | .error _ => db
  | .deleteComponent cid =>
    match delete_component db cid with
    | .ok db' => db' | .error _ => db
  | .createTransaction data user now =>
    match create_transaction db data user now with
    | .ok (db', _) => db' | .error _ => db
  | .approve tid dueDays admin now =>
    match approve_transaction db tid dueDays admin now with
    | .ok (db', _) => db' | .error _ => db
  | .reject tid reason now =>
    match reject_transaction db tid reason now with
    | .ok (db', _) => db' | .error _ => db
  | .adminReturn tid condition now =>
    match return_component db tid condition now with
    | .ok (db', _) => db' | .error _ => db
  | .kioskBorrow req now =>
    match borrow_component db req now with
    | .ok (db', _) => db' | .error _ => db
  | .kioskReturn tid condition now =>
    match kiosk_return_component db tid condition now with
    | .ok (db', _) => db' | .error _ => db
  | .listOverdue now =>
    match get_overdue_transactions db now with
    | .ok (db', _) => db' | .error _ => db

/-- Run a sequence of endpoint calls. -/
def applyOps (db : DB) (ops : List Op) : DB :=
  ops.foldl applyOp db

/-! ### Chat context builders (`app/routes/chat.py`)

The chat endpoint's context builders are read-only; they feed both the
LLM prompt (out of scope — external call) and the deterministic
fallback (`generate_smart_fallback`), which is fully embedded. -/

/-- The `comp_info` dict built per component by
`get_detailed_inventory_context`. -/
structure CompInfo where
  id : Nat
  name : String
  category : String
  total : Int
  available : Int
  issued : Int
  location : String
  description : String
  tags : List String
deriving Repr, DecidableEq

/-- `comp_info` for one component document (`.get` defaulting as in the
source: location falls back to `"Not specified"`, description to `""`). -/
def compInfoOf (c : Component) : CompInfo :=
  { id := c.cid
    name := c.name
    category := c.category
    total := c.totalQuantity
    available := c.availableQuantity
    issued := c.totalQuantity - c.availableQuantity
    location := c.location.getD "Not specified"
    description := c.description.getD ""
    tags := c.tags }

/-- Append `info` to the bucket for `cat`, creating the bucket at the
end on first sight (Python dict insertion order). -/
def addToCategory (cat : String) (info : CompInfo) :
    List (String × List CompInfo) → List (String × List CompInfo)
  | [] => [(cat, [info])]
  | (k, v) :: rest =>
    if k == cat then (k, v ++ [info]) :: rest
    else (k, v) :: addToCategory cat info rest

/-- The `inventory_data` dict of `get_detailed_inventory_context`. -/
structure InventoryCtx where
  components : List CompInfo
  byCategory : List (String × List CompInfo)
  lowStock : List CompInfo
  outOfStock : List CompInfo
  totalTypes : Nat
  totalItems : Int
  totalAvailable : Int
deriving Repr, DecidableEq

/-- `get_detailed_inventory_context`: one pass over
`db.components.find().to_list(length=200)`. -/
def get_detailed_inventory_context (db : DB) : InventoryCtx :=
  let infos := (db.components.take 200).map compInfoOf
  { components := infos
    byCategory := infos.foldl (fun m i => addToCategory i.category i m) []
    lowStock := infos.filter (fun i => !(i.available == 0) && decide (i.available ≤ 2))
    outOfStock := infos.filter (fun i => i.available == 0)
    totalTypes := infos.length
    totalItems := (infos.map (fun i => i.total)).sum
    totalAvailable := (infos.map (fun i => i.available)).sum }

/-- The `tx_info` dict built per active transaction by
`get_detailed_transactions_context` (dates rendered through the
abstract day-granularity `toString`). -/
structure TxInfo where
  id : Nat
  componentName : String
  componentId : Nat
  quantity : Int
  studentName : String
  studentRoll : String
  status : TransactionStatus
  issueDate : String
  dueDate : String
  isOverdue : Bool
  daysOverdue : Int
deriving Repr, DecidableEq

/-- `tx_info` for one active transaction. -/
def txInfoOf (now : Int) (t : Transaction) : TxInfo :=
  { id := t.tid
    componentName := t.componentName
    componentId := t.componentId
    quantity := t.quantity
    studentName := t.userName
    studentRoll := t.rollNumber.getD t.userEmail
    status := t.status
    issueDate := toString (t.issueDate.getD t.createdAt)
    dueDate := match t.dueDate with
      | some d => toString d
      | none => "Not set"
    isOverdue := dueBefore now t
    daysOverdue := match t.dueDate with
      | some d => now - d
      | none => 0 }

/-- One entry of `tx_data["overdue"]`. -/
structure OverdueInfo where
  componentName : String
  quantity : Int
  studentName : String
  studentRoll : String
  dueDate : String
  daysOverdue : Int
deriving Repr, DecidableEq

/-- One entry of `tx_data["recent_returns"]`. -/
structure ReturnInfo where
  componentName : String
  quantity : Int
  studentName : String
  returnDate : String
deriving Repr, DecidableEq

/-- A value of `tx_data["by_student"]`. -/
structure StudentEntry where
  roll : String
  items : List TxInfo
deriving Repr, DecidableEq

/-- Append `info` to the student bucket (roll fixed at first sight, as
in the source). -/
def addToStudent (student roll : String) (info : TxInfo) :
    List (String × StudentEntry) → List (String × StudentEntry)
  | [] => [(student, { roll := roll, items := [info] })]
  | (k, e) :: rest =>
    if k == student then (k, { e with items := e.items ++ [info] }) :: rest
    else (k, e) :: addToStudent student roll info rest

/-- Append `info` to the component bucket of `tx_data["by_component"]`. -/
def addToComponentGroup (comp : String) (info : TxInfo) :
    List (String × List TxInfo) → List (String × List TxInfo)
  | [] => [(comp, [info])]
  | (k, v) :: rest =>
    if k == comp then (k, v ++ [info]) :: rest
    else (k, v) :: addToComponentGroup comp info rest

/-- The `tx_data` dict of `get_detailed_transactions_context`. -/
structure TxCtx where
  active : List TxInfo
  overdue : List OverdueInfo
  recentReturns : List ReturnInfo
  byStudent : List (String × StudentEntry)
  byComponent : List (String × List TxInfo)
  totalActive : Nat
  totalOverdue : Nat
deriving Repr, DecidableEq

/-- `get_detailed_transactions_context`: active = `issued|pending`
sorted newest-created first (capped at 100), overdue = `issued` past
due (capped at 50), recent returns = `returned` within 7 days (sorted
newest first, capped at 20). -/
def get_detailed_transactions_context (db : DB) (now : Int) : TxCtx :=
  let activeDocs := ((db.transactions.filter (fun t =>
      t.status == TransactionStatus.issued ||
      t.status == TransactionStatus.pending)).insertionSort
      (fun a b => a.createdAt ≥ b.createdAt)).take 100
  let overdueDocs := (db.transactions.filter (fun t =>
      t.status == TransactionStatus.issued && dueBefore now t)).take 50
  let returnDocs := (((db.transactions.filter (fun t =>
      t.status == TransactionStatus.returned &&
      (match t.returnDate with
       | some d => decide (now - 7 ≤ d)
       | none => false))).insertionSort
      (fun a b => a.returnDate.getD 0 ≥ b.returnDate.getD 0)).take 20)
  let activeInfos := activeDocs.map (txInfoOf now)
  { active := activeInfos
    overdue := overdueDocs.map (fun t =>
      { componentName := t.componentName
        quantity := t.quantity
        studentName := t.userName
        studentRoll := t.rollNumber.getD "N/A"
        dueDate := toString (t.dueDate.getD 0)
        daysOverdue := now - t.dueDate.getD 0 })
    recentReturns := returnDocs.map (fun t =>
      { componentName := t.componentName
        quantity := t.quantity
        studentName := t.userName
        returnDate := match t.returnDate with
          | some d => toString d
          | none => "N/A" })
    byStudent := activeDocs.foldl (fun m t =>
      addToStudent t.userName (t.rollNumber.getD "N/A") (txInfoOf now t) m) []
    byComponent := activeInfos.foldl (fun m i =>
      addToComponentGroup i.componentName i m) []
    totalActive := activeDocs.length
    totalOverdue := overdueDocs.length }

/-- The dict of `get_stats_context` (`top_borrowed` omitted: it is only
interpolated into the LLM prompt, which is out of scope). -/
structure StatsCtx where
  totalComponentTypes : Nat
  activeBorrows : Nat
  overdueCount : Nat
deriving Repr, DecidableEq

/-- `get_stats_context`. -/
def get_stats_context (db : DB) (now : Int) : StatsCtx :=
  { totalComponentTypes := db.components.length
    activeBorrows := (db.transactions.filter (fun t =>
      t.status == TransactionStatus.issued)).length
    overdueCount := (db.transactions.filter (fun t =>
      t.status == TransactionStatus.issued && dueBefore now t)).length }

/-! ### `extract_query_intent` (`app/routes/chat.py`) -/

/-- The `intent` dict (the source never fills `students`/`actions`). -/
structure QueryIntent where
  type : String
  components : List String
  students : List String
  actions : List String
deriving Repr, DecidableEq

/-- The fixed component-name vocabulary of `extract_query_intent`. -/
def componentVocab : List String :=
  ["arduino", "esp32", "esp8266", "raspberry", "pi", "sensor", "led",
   "resistor", "capacitor", "motor", "servo", "stepper", "display",
   "oled", "lcd", "relay", "transistor", "diode", "wire", "breadboard",
   "jumper", "cable", "usb", "battery", "power", "supply", "module",
   "wifi", "bluetooth", "gps", "ultrasonic", "infrared", "temperature",
   "humidity", "pressure", "accelerometer", "gyroscope", "camera",
   "microphone", "speaker", "buzzer", "button", "switch", "potentiometer",
   "rfid", "nfc", "lora", "gsm", "sim", "ethernet", "shield"]

/-- The keyword-membership intent cascade of `extract_query_intent`
(substring tests on the lower-cased query, first hit wins, default
`general`). -/
def intentTypeOf (ql : String) : String :=
  if ["where", "location", "find", "located"].any (fun w => containsSub w ql) then
    "location"
  else if ["who has", "who took", "who borrowed", "issued to"].any
      (fun w => containsSub w ql) then
    "who_has"
  else if ["available", "stock", "how many", "quantity", "left"].any
      (fun w => containsSub w ql) then
    "availability"
  else if ["overdue", "late", "pending", "due"].any (fun w => containsSub w ql) then
    "overdue"
  else if ["all", "list", "show", "inventory"].any (fun w => containsSub w ql) then
    "list_all"
  else if ["borrow", "take", "checkout", "issue"].any (fun w => containsSub w ql) then
    "borrow_help"
  else if ["return", "give back"].any (fun w => containsSub w ql) then
    "return_help"
  else "general"

/-- `extract_query_intent` of `app/routes/chat.py`. -/
def extract_query_intent (query : String) : QueryIntent :=
  let ql := lowerStr query
  { type := intentTypeOf ql
    components := componentVocab.filter (fun comp => containsSub comp ql)
    students := []
    actions := [] }

/-! ### `generate_smart_fallback` (`app/routes/chat.py`) -/

/-- A character of `\w` (Python `re`, ASCII on these inputs). -/
def isWordChar (c : Char) : Bool :=
  c.isAlphanum || c == '_'

/-- Split into maximal word-character runs (accumulator holds the
current run reversed). -/
def wordRunsAux : List Char → List Char → List String
  | [], acc => if acc.isEmpty then [] else [String.mk acc.reverse]
  | c :: cs, acc =>
    if isWordChar c then wordRunsAux cs (c :: acc)
    else if acc.isEmpty then wordRunsAux cs []
    else String.mk acc.reverse :: wordRunsAux cs []

/-- `re.findall(r'\b\w{3,}\b', s)`: the maximal word-character runs of
length at least 3. -/
def findWords (s : String) : List String :=
  (wordRunsAux s.data []).filter (fun w => 3 ≤ w.length)

/-- The stop-word list of `generate_smart_fallback`. -/
def fallbackStopWords : List String :=
  ["the", "what", "where", "which", "who", "has", "have", "are",
   "is", "can", "how", "many", "much", "show", "find", "get",
   "available", "stock", "location", "located", "currently"]

/-- The search terms of `generate_smart_fallback`: the classifier's
vocabulary hits, or else the stop-word-filtered words of the query. -/
def fallbackSearchTerms (ql : String) (intent : QueryIntent) : List String :=
  if intent.components.isEmpty then
    (findWords ql).filter (fun w => !(fallbackStopWords.contains w))
  else intent.components

/-- One component entry of the `location` branch. -/
def locationEntry (comp : CompInfo) : String :=
  let statusStr :=
    if comp.available > 0 then
      "✅ " ++ toString comp.available ++ "/" ++ toString comp.total ++ " available"
    else "❌ Out of stock"
  "**" ++ comp.name ++ "**\n" ++
  "  - Location: " ++ comp.location ++ "\n" ++
  "  - Status: " ++ statusStr ++ "\n\n"

/-- One transaction line of the `location` branch. -/
def locationTxLine (tx : TxInfo) : String :=
  "  - " ++ tx.studentName ++ " (" ++ tx.studentRoll ++ "): " ++
  toString tx.quantity ++ "x\n"

/-- One transaction entry of the `who_has` branch. -/
def whoHasEntry (tx : TxInfo) : String :=
  let overdueMark := if tx.isOverdue then " 🔴 OVERDUE" else ""
  "**" ++ tx.componentName ++ "** x" ++ toString tx.quantity ++ "\n" ++
  "  - Student: " ++ tx.studentName ++ "\n" ++
  "  - Roll: " ++ tx.studentRoll ++ "\n" ++
  "  - Due: " ++ tx.dueDate ++ overdueMark ++ "\n\n"

/-- One student block of the who-has-what listing. -/
def whoHasStudentBlock (entry : String × StudentEntry) : String :=
  "**" ++ entry.1 ++ "** (Roll: " ++ entry.2.roll ++ "):\n" ++
  String.join (entry.2.items.map (fun item =>
    "  - " ++ item.componentName ++ " x" ++ toString item.quantity ++ "\n")) ++
  "\n"

/-- One component entry of the `availability` branch: stocked entries
are rendered available, exhausted ones are flagged out of stock with
their current borrowers. -/
def availabilityEntry (active : List TxInfo) (comp : CompInfo) : String :=
  if comp.available > 0 then
    "✅ **" ++ comp.name ++ "**: " ++ toString comp.available ++ "/" ++
    toString comp.total ++ " available\n" ++
    "   Location: " ++ comp.location ++ "\n\n"
  else
    "❌ **" ++ comp.name ++ "**: Out of stock (0/" ++ toString comp.total ++ ")\n" ++
    String.join ((active.filter (fun tx =>
      lowerStr tx.componentName == lowerStr comp.name)).map (fun tx =>
      "   → Borrowed by: " ++ tx.studentName ++ "\n")) ++
    "\n"

/-- One item of the overdue listing. -/
def overdueEntry (item : OverdueInfo) : String :=
  "**" ++ item.componentName ++ "** x" ++ toString item.quantity ++ "\n" ++
  "  - Student: " ++ item.studentName ++ " (" ++ item.studentRoll ++ ")\n" ++
  "  - Due: " ++ item.dueDate ++ " (" ++ toString item.daysOverdue ++
  " days overdue)\n\n"

/-- One category block of the `list_all` branch. -/
def listAllCategoryBlock (entry : String × List CompInfo) : String :=
  "**" ++ upperStr entry.1 ++ ":**\n" ++
  String.join ((entry.2.take 5).map (fun item =>
    let statusStr :=
      if item.available > 0 then
        toString item.available ++ "/" ++ toString item.total
      else "OUT"
    "  - " ++ item.name ++ ": " ++ statusStr ++ "\n")) ++
  (if 5 < entry.2.length then
    "  ... and " ++ toString (entry.2.length - 5) ++ " more\n"
   else "") ++
  "\n"

/-- One component entry of the default (no-intent) listing. -/
def defaultFoundEntry (comp : CompInfo) : String :=
  let statusStr :=
    if comp.available > 0 then
      "✅ " ++ toString comp.available ++ "/" ++ toString comp.total
    else "❌ Out of stock"
  "**" ++ comp.name ++ "** - " ++ statusStr ++ "\n" ++
  "  Location: " ++ comp.location ++ "\n\n"

/-- `generate_smart_fallback` of `app/routes/chat.py`: the
deterministic rule engine used whenever no LLM reply was produced. -/
def generate_smart_fallback (query : String) (intent : QueryIntent)
    (inventory : InventoryCtx) (transactions : TxCtx) (stats : StatsCtx) :
    String :=
  let ql := lowerStr query
  let searchTerms := fallbackSearchTerms ql intent
  let matchingComponents := inventory.components.filter (fun comp =>
    searchTerms.any (fun term =>
      containsSub term (lowerStr comp.name) ||
      containsSub term (lowerStr comp.description)))
  let matchingTransactions := transactions.active.filter (fun tx =>
    searchTerms.any (fun term => containsSub term (lowerStr tx.componentName)))
  if intent.type == "location" || containsSub "where" ql then
    if !matchingComponents.isEmpty then
      "📍 **Component Location(s):**\n\n" ++
      String.join (matchingComponents.map locationEntry) ++
      (if !matchingTransactions.isEmpty then
        "📋 **Currently borrowed by:**\n" ++
        String.join (matchingTransactions.map locationTxLine)
       else "")
    else
      "❌ I couldn't find any component matching '" ++
      String.intercalate " " searchTerms ++
      "' in the inventory.\n\n💡 Try searching for: Arduino, ESP32, sensors, LED, etc."
  else if intent.type == "who_has" ||
      (containsSub "who" ql && containsSub "has" ql) then
    if !matchingTransactions.isEmpty then
      "👤 **Currently Borrowed:**\n\n" ++
      String.join (matchingTransactions.map whoHasEntry)
    else if !searchTerms.isEmpty then
      "✅ No one currently has '" ++ String.intercalate " " searchTerms ++
      "' borrowed. It should be available in the inventory."
    else if !transactions.byStudent.isEmpty then
      "👥 **Who Has What:**\n\n" ++
      String.join ((transactions.byStudent.take 10).map whoHasStudentBlock)
    else
      "✅ No components are currently borrowed."
  else if intent.type == "availability" || containsSub "available" ql then
    if !matchingComponents.isEmpty then
      "📦 **Availability:**\n\n" ++
      String.join (matchingComponents.map
        (availabilityEntry transactions.active))
    else
      "📦 **Inventory Overview:**\n\n" ++
      "Total component types: " ++ toString inventory.totalTypes ++ "\n" ++
      "Available items: " ++ toString inventory.totalAvailable ++ "/" ++
      toString inventory.totalItems ++ "\n\n" ++
      (if !inventory.outOfStock.isEmpty then
        "❌ **Out of Stock:**\n" ++
        String.join ((inventory.outOfStock.take 5).map (fun comp =>
          "  - " ++ comp.name ++ "\n")) ++
        "\n"
       else "") ++
      (if !inventory.lowStock.isEmpty then
        "⚠️ **Low Stock:**\n" ++
        String.join ((inventory.lowStock.take 5).map (fun comp =>
          "  - " ++ comp.name ++ ": " ++ toString comp.available ++ " left\n"))
       else "")
  else if intent.type == "overdue" || containsSub "overdue" ql then
    if !transactions.overdue.isEmpty then
      "🔴 **Overdue Items (" ++ toString transactions.overdue.length ++
      "):**\n\n" ++
      String.join (transactions.overdue.map overdueEntry)
    else
      "✅ **Great news!** There are no overdue items at the moment."
  else if intent.type == "list_all" || containsSub "all" ql ||
      containsSub "list" ql then
    "📋 **Inventory Summary:**\n\n" ++
    "Total types: " ++ toString inventory.totalTypes ++ "\n" ++
    "Total items: " ++ toString inventory.totalItems ++ "\n" ++
    "Available: " ++ toString inventory.totalAvailable ++ "\n\n" ++
    String.join (inventory.byCategory.map listAllCategoryBlock)
  else if !matchingComponents.isEmpty || !matchingTransactions.isEmpty then
    (if !matchingComponents.isEmpty then
      "📦 **Found in Inventory:**\n\n" ++
      String.join (matchingComponents.map defaultFoundEntry)
     else "") ++
    (if !matchingTransactions.isEmpty then
      "📋 **Active Borrows:**\n" ++
      String.join (matchingTransactions.map (fun tx =>
        "  - " ++ tx.componentName ++ " → " ++ tx.studentName ++ "\n"))
     else "")
  else
    "🤖 **How can I help you?**\n\n" ++
    "I have access to the components room inventory. Here's what I can tell you:\n\n" ++
    "📊 **Quick Stats:**\n" ++
    "- " ++ toString stats.totalComponentTypes ++ " component types\n" ++
    "- " ++ toString stats.activeBorrows ++ " items currently borrowed\n" ++
    "- " ++ toString stats.overdueCount ++ " overdue items\n\n" ++
    "💡 **Try asking:**\n" ++
    "- \"Where is the Arduino?\"\n" ++
    "- \"Who has the ESP32?\"\n" ++
    "- \"What sensors are available?\"\n" ++
    "- \"Show all overdue items\"\n" ++
    "- \"List all components\"\n\n" ++
    "Just ask me about any component and I'll give you accurate information!"

/-! ### Claim C4: the fallback responder on a zero-stock component -/

/-- An `ESP32` component document with `available_quantity = 0`. -/
def c4comp : Component :=
  { cid := 1
    name := "ESP32"
    description := none
    category := "microcontroller"
    totalQuantity := 4
    availableQuantity := 0
    status := ComponentStatus.issued
    location := some "Shelf A"
    tags := []
    createdBy := "admin"
    createdAt := 0
    updatedAt := 0 }

/-- A database with exactly one component, `ESP32`, present with
`available_quantity = 0`, and no transactions at all. -/
def c4db : DB :=
  { components := [c4comp]
    transactions := []
    nextCid := 2
    nextTid := 1 }

/-- The fallback reply for the query "who has the esp32" against `c4db`. -/
def c4reply : String :=
  generate_smart_fallback "who has the esp32"
    (extract_query_intent "who has the esp32")
    (get_detailed_inventory_context c4db)
    (get_detailed_transactions_context c4db 100)
    (get_stats_context c4db 100)

/-- A component with `available_quantity = 2` for the C5 witness. -/
def c5comp : Component :=
  { cid := 1
    name := "Arduino Uno"
    description := none
    category := "microcontroller"
    totalQuantity := 5
    availableQuantity := 2
    status := ComponentStatus.available
    location := none
    tags := []
    createdBy := "admin"
    createdAt := 0
    updatedAt := 0 }

/-- A small concrete database for the C5 witness. -/
def c5db : DB :=
  { components := [c5comp]
    transactions := []
    nextCid := 2
    nextTid := 1 }

/-- The over-ask request of the C5 witness (3 of 2 available). -/
def c5req : TransactionCreate :=
  { componentId := 1, quantity := 3, purpose := none,
    expectedReturnDate := none }

/-- The student of the C5 witness. -/
def c5user : Caller := { id := "u1", name := "Stu", email := "s@x" }

/-- A transaction already `returned`, for the C2 witness. -/
def c2tx : Transaction :=
  { tid := 7
    componentId := 1
    componentName := "Arduino Uno"
    userId := "u1"
    userName := "Stu"
    userEmail := "s@x"
    quantity := 1
    purpose := none
    status := TransactionStatus.returned
    expectedReturnDate := none
    issueDate := some 0
    dueDate := some 7
    returnDate := some 3
    returnCondition := some "good"
    approvedBy := some "a1"
    adminNotes := none
    rollNumber := none
    createdAt := 0
    updatedAt := 3 }

/-- A database whose only transaction is already `returned`. -/
def c2db : DB :=
  { components := [c5comp]
    transactions := [c2tx]
    nextCid := 2
    nextTid := 8 }

/-! ### Claims C6 and C10: deleting a component -/

/-- The active-transaction guard predicate of `delete_component`. -/
def activeTxFor (cid : Nat) (t : Transaction) : Bool :=
  t.componentId == cid &&
  (t.status == TransactionStatus.pending ||
   t.status == TransactionStatus.approved ||
   t.status == TransactionStatus.issued)

/-- A `pending` transaction on component 1, for the C6 witness. -/
def c6txPending : Transaction :=
  { c2tx with tid := 9, status := TransactionStatus.pending,
              issueDate := none, dueDate := none, returnDate := none,
              returnCondition := none, approvedBy := none }

/-- Database with a `pending` transaction referencing component 1. -/
def c6dbActive : DB :=
  { components := [c5comp], transactions := [c6txPending],
    nextCid := 2, nextTid := 10 }

/-- Database whose only transaction on component 1 is `returned`. -/
def c6dbClean : DB :=
  { components := [c5comp], transactions := [c2tx],
    nextCid := 2, nextTid := 10 }

/-- An `overdue` transaction on component 1, for the C10 witness. -/
def c10txOverdue : Transaction :=
  { c2tx with tid := 11, status := TransactionStatus.overdue,
              returnDate := none, returnCondition := none }

/-- Database whose only transaction on component 1 is `overdue`. -/
def c10db : DB :=
  { components := [c5comp], transactions := [c10txOverdue],
    nextCid := 2, nextTid := 12 }

/-! ### Inversion lemmas: what a successful handler call did -/

/-- The duplicate-loan guard predicate of the kiosk `borrow_component`:
an `issued` transaction of the same component by the same (upper-cased)
roll number. -/
def kioskDuplicateFor (req : BorrowRequest) (t : Transaction) : Bool :=
  t.rollNumber == some (upperStr req.rollNumber) &&
  t.componentId == req.componentId &&
  t.status == TransactionStatus.issued

/-- The `$set` update applied to the transaction by a successful
`approve_transaction`. -/
def approveSet (dueDays : Int) (admin : Caller) (now : Int)
    (x : Transaction) : Transaction :=
  { x with
    status := TransactionStatus.issued
    issueDate := some now
    dueDate := some (now + dueDays)
    approvedBy := some admin.id
    updatedAt := now }

/-- The `$set` update applied by a successful `reject_transaction`. -/
def rejectSet (reason : Option String) (now : Int) (x : Transaction) :
    Transaction :=
  { x with
    status := TransactionStatus.rejected
    adminNotes := reason
    updatedAt := now }

/-- The `$set` update applied by a successful admin `return_component`. -/
def returnSet (condition : String) (now : Int) (x : Transaction) :
    Transaction :=
  { x with
    status := TransactionStatus.returned
    returnDate := some now
    returnCondition := some condition
    updatedAt := now }

/-- The `$set` update applied by a successful kiosk `return_component`. -/
def kioskReturnSet (condition : Option String) (now : Int)
    (x : Transaction) : Transaction :=
  { x with
    status := TransactionStatus.returned
    returnDate := some now
    returnCondition := condition
    updatedAt := now }

/-- The `update_many` rewrite performed by `get_overdue_transactions`. -/
def overdueRewrite (now : Int) (t : Transaction) : Transaction :=
  if t.status == TransactionStatus.issued && dueBefore now t then
    { t with status := TransactionStatus.overdue, updatedAt := now }
  else t

/-- An `issued` transaction already past its due date (due 7, now 100). -/
def c8tx : Transaction :=
  { c2tx with tid := 21, status := TransactionStatus.issued,
              dueDate := some 7, returnDate := none, returnCondition := none }

/-- Database for the C8 witness. -/
def c8db : DB :=
  { components := [c5comp], transactions := [c8tx],
    nextCid := 2, nextTid := 22 }

/-- A second component (Y) for the C7 witness. -/
def c7compY : Component :=
  { c5comp with cid := 2, name := "ESP32 DevKit" }

/-- A kiosk-issued loan of component 1 by roll number 21CS001. -/
def c7txIssued : Transaction :=
  { c2tx with tid := 13, status := TransactionStatus.issued,
              userId := "student_21CS001", userName := "Stu",
              userEmail := "21cs001@student.local",
              rollNumber := some "21CS001",
              returnDate := none, returnCondition := none, approvedBy := none }

/-- Database for the C7 witness: components 1 and 2, with an `issued`
kiosk loan of component 1 by roll 21CS001. -/
def c7db : DB :=
  { components := [c5comp, c7compY], transactions := [c7txIssued],
    nextCid := 3, nextTid := 14 }

/-- The repeated borrow request of component 1 by roll 21CS001. -/
def c7reqX : BorrowRequest :=
  { rollNumber := "21CS001", name := "Stu", componentId := 1,
    quantity := 1, purpose := none }

/-- The borrow request of component 2 by the same roll number. -/
def c7reqY : BorrowRequest :=
  { rollNumber := "21CS001", name := "Stu", componentId := 2,
    quantity := 1, purpose := none }

/-- A fully stocked component for the C3 witness (5 of 5 available). -/
def c3comp : Component :=
  { c5comp with totalQuantity := 5, availableQuantity := 5 }

/-- A `pending` request for 3 units of component 1. -/
def c3tx : Transaction :=
  { c2tx with tid := 30, status := TransactionStatus.pending, quantity := 3,
              issueDate := none, dueDate := none, returnDate := none,
              returnCondition := none, approvedBy := none }

/-- Database for the C3 witness. -/
def c3db : DB :=
  { components := [c3comp], transactions := [c3tx],
    nextCid := 2, nextTid := 31 }

/-! ### Claim C1: the quantity invariant

The outstanding stock of a component is the summed quantity of its
`issued`/`overdue` transactions; a well-formed database ties it to the
component's quantities.  The transaction-lifecycle operations preserve
well-formedness, which entails `0 ≤ available ≤ total`; the component
create/update handlers do not (see the counterexample). -/

/-- The stock a transaction currently holds of component `cid`:
its quantity while `issued` or `overdue`, else nothing. -/
def outContrib (cid : Nat) (t : Transaction) : Int :=
  if t.componentId = cid ∧ (t.status = TransactionStatus.issued ∨
      t.status = TransactionStatus.overdue) then
    t.quantity
  else 0

/-- Total outstanding stock of component `cid` across a transaction
collection. -/
def outstandingSum (cid : Nat) (txs : List Transaction) : Int :=
  (txs.map (outContrib cid)).sum

/-- Database well-formedness: each component's available plus
outstanding stock equals its total (§3 of the spec), all quantities are
positive, document ids are unique (Mongo `_id`), and the transaction id
counter is fresh. -/
def ConsistentDB (db : DB) : Prop :=
  (∀ c ∈ db.components, 0 ≤ c.availableQuantity ∧
     c.availableQuantity + outstandingSum c.cid db.transactions = c.totalQuantity) ∧
  (∀ t ∈ db.transactions, 1 ≤ t.quantity) ∧
  (db.components.map (fun c => c.cid)).Nodup ∧
  (db.transactions.map (fun t => t.tid)).Nodup ∧
  (∀ t ∈ db.transactions, t.tid < db.nextTid)

/-- The transaction-lifecycle operations: everything except the
component create/update endpoints with admin-supplied quantities. -/
def isTxOp : Op → Bool
  | .createComponent _ _ _ => false
  | .updateComponent _ _ _ => false
  | _ => true

/-- The admin-supplied creation payload of the C1 counterexample:
`available_quantity = 10` exceeding `total_quantity = 5`, each field
individually passing the `ge=0` validation. -/
def c1data : ComponentCreate :=
  { name := "Arduino Mega", description := none,
    category := "microcontroller", totalQuantity := 5,
    availableQuantity := 10, location := none, tags := [] }

/-- The admin caller of the C1 counterexample. -/
def c1admin : Caller := { id := "admin", name := "Admin", email := "ad@x" }

/-- The empty starting database of the C1 counterexample. -/
def c1db0 : DB :=
  { components := [], transactions := [], nextCid := 1, nextTid := 1 }

/-- The component document `create_component` stores for `c1data`. -/
def c1comp : Component :=
  { cid := 1, name := "Arduino Mega", description := none,
    category := "microcontroller", totalQuantity := 5,
    availableQuantity := 10, status := ComponentStatus.available,
    location := none, tags := [], createdBy := "admin",
    createdAt := 0, updatedAt := 0 }

/-- The fully stocked component of the C1 witness database. -/
def c1wcomp : Component :=
  { cid := 1
    name := "Arduino Uno"
    description := none
    category := "microcontroller"
    totalQuantity := 5
    availableQuantity := 5
    status := ComponentStatus.available
    location := none
    tags := []
    createdBy := "admin"
    createdAt := 0
    updatedAt := 0 }

/-- The pending request of the C1 witness database. -/
def c1wtx : Transaction :=
  { tid := 40
    componentId := 1
    componentName := "Arduino Uno"
    userId := "u1"
    userName := "Stu"
    userEmail := "s@x"
    quantity := 3
    purpose := none
    status := TransactionStatus.pending
    expectedReturnDate := none
    issueDate := none
    dueDate := none
    returnDate := none
    returnCondition := none
    approvedBy := none
    adminNotes := none
    rollNumber := none
    createdAt := 0
    updatedAt := 0 }

/-- A well-formed database for the C1 witness: component 1 fully
stocked (5 of 5) and one pending request for 3 units. -/
def c1wdb : DB :=
  { components := [c1wcomp], transactions := [c1wtx],
    nextCid := 2, nextTid := 41 }

/-! ## Theorems -/

@[simp] theorem beq_transactionStatus (a b : TransactionStatus) :
    (a == b) = decide (a = b) := rfl

/-! ### Helper lemmas about the collection-operation embeddings -/

theorem find?_decomp {α} {p : α → Bool} {xs : List α} {x : α}
    (h : xs.find? p = some x) :
    ∃ pre post, xs = pre ++ x :: post ∧ ∀ y ∈ pre, p y = false := by
  induction xs with
  | nil => simp [List.find?] at h
  | cons a as ih =>
    by_cases hp : p a
    · refine ⟨[], as, ?_, by simp⟩
      have hax : some a = some x := by simpa [List.find?, hp] using h
      simp [Option.some_inj.mp hax]
    · have h' : as.find? p = some x := by
        simpa [List.find?, hp] using h
      obtain ⟨pre, post, rfl, hpre⟩ := ih h'
      refine ⟨a :: pre, post, rfl, ?_⟩
      intro y hy
      rcases List.mem_cons.mp hy with rfl | hy
      · simpa using hp
      · exact hpre y hy

theorem replaceFirst_append {α} {p : α → Bool} (f : α → α) {pre : List α}
    {x : α} (post : List α) (hpre : ∀ y ∈ pre, p y = false)
    (hx : p x = true) :
    replaceFirst p f (pre ++ x :: post) = pre ++ f x :: post := by
  induction pre with
  | nil => simp [replaceFirst, hx]
  | cons a as ih =>
    have ha : p a = false := hpre a (by simp)
    simp only [List.cons_append, replaceFirst, ha]
    simp only [Bool.false_eq_true, if_false]
    exact congrArg (List.cons a) (ih (fun y hy => hpre y (List.mem_cons_of_mem _ hy)))

theorem replaceFirst_eq_self {α} {p : α → Bool} (f : α → α) {xs : List α}
    (h : ∀ y ∈ xs, p y = false) : replaceFirst p f xs = xs := by
  induction xs with
  | nil => rfl
  | cons a as ih =>
    have ha : p a = false := h a (by simp)
    simp only [replaceFirst, ha, Bool.false_eq_true, if_false]
    rw [ih (fun y hy => h y (List.mem_cons_of_mem _ hy))]

theorem mem_replaceFirst {α} {p : α → Bool} {f : α → α} {xs : List α} {y : α}
    (hy : y ∈ replaceFirst p f xs) :
    y ∈ xs ∨ ∃ x, x ∈ xs ∧ p x = true ∧ y = f x := by
  induction xs with
  | nil => simp [replaceFirst] at hy
  | cons a as ih =>
    by_cases hp : p a
    · simp only [replaceFirst, hp, if_true] at hy
      rcases List.mem_cons.mp hy with rfl | hy
      · exact Or.inr ⟨a, by simp, hp, rfl⟩
      · exact Or.inl (List.mem_cons_of_mem _ hy)
    · simp only [replaceFirst, hp, Bool.false_eq_true, if_false] at hy
      rcases List.mem_cons.mp hy with rfl | hy
      · exact Or.inl (by simp)
      · rcases ih hy with h | ⟨x, hx, hpx, rfl⟩
        · exact Or.inl (List.mem_cons_of_mem _ h)
        · exact Or.inr ⟨x, List.mem_cons_of_mem _ hx, hpx, rfl⟩

theorem map_replaceFirst {α β} (g : α → β) {p : α → Bool} {f : α → α}
    (hf : ∀ x, g (f x) = g x) (xs : List α) :
    (replaceFirst p f xs).map g = xs.map g := by
  induction xs with
  | nil => rfl
  | cons a as ih =>
    by_cases hp : p a
    · simp [replaceFirst, hp, hf]
    · simp [replaceFirst, hp, ih]

theorem removeFirst_sublist {α} (p : α → Bool) (xs : List α) :
    (removeFirst p xs).Sublist xs := by
  induction xs with
  | nil => simp [removeFirst]
  | cons a as ih =>
    by_cases hp : p a
    · simp only [removeFirst, hp, if_true]
      exact List.sublist_cons_self a as
    · simpa [removeFirst, hp] using List.Sublist.cons₂ a ih

theorem removeFirst_append {α} {p : α → Bool} {pre : List α} {x : α}
    (post : List α) (hpre : ∀ y ∈ pre, p y = false) (hx : p x = true) :
    removeFirst p (pre ++ x :: post) = pre ++ post := by
  induction pre with
  | nil => simp [removeFirst, hx]
  | cons a as ih =>
    have ha : p a = false := hpre a (by simp)
    simp only [List.cons_append, removeFirst, ha, Bool.false_eq_true, if_false]
    exact congrArg (List.cons a) (ih (fun y hy => hpre y (List.mem_cons_of_mem _ hy)))

/-! ### Helper lemmas about substring containment -/

theorem containsL_nil (s : List Char) : containsL [] s = true := by
  cases s with
  | nil => rfl
  | cons c cs => simp [containsL, isPrefixOfL]

theorem isPrefixOfL_append {sub u : List Char} (t : List Char)
    (h : isPrefixOfL sub u = true) : isPrefixOfL sub (u ++ t) = true := by
  induction sub generalizing u with
  | nil => rfl
  | cons a as ih =>
    cases u with
    | nil => simp [isPrefixOfL] at h
    | cons b bs =>
      simp only [isPrefixOfL, Bool.and_eq_true] at h
      simp only [List.cons_append, isPrefixOfL, Bool.and_eq_true]
      exact ⟨h.1, ih h.2⟩

theorem containsL_of_isPrefixOfL {sub s : List Char}
    (h : isPrefixOfL sub s = true) : containsL sub s = true := by
  cases s with
  | nil => simpa [containsL] using h
  | cons c cs => simp [containsL, h]

theorem containsL_append_right {sub s : List Char} (t : List Char)
    (h : containsL sub s = true) : containsL sub (t ++ s) = true := by
  induction t with
  | nil => simpa using h
  | cons c cs ih => simp [containsL, ih]

theorem containsL_append_left {sub s : List Char} (t : List Char)
    (h : containsL sub s = true) : containsL sub (s ++ t) = true := by
  induction s with
  | nil =>
    have hsub : isPrefixOfL sub [] = true := by simpa [containsL] using h
    cases sub with
    | nil => simpa using containsL_nil t
    | cons a as => simp [isPrefixOfL] at hsub
  | cons c cs ih =>
    simp only [containsL, Bool.or_eq_true] at h
    rcases h with h | h
    · exact containsL_of_isPrefixOfL
        (by simpa using isPrefixOfL_append t h)
    · simp only [List.cons_append, containsL, Bool.or_eq_true]
      exact Or.inr (ih h)

theorem containsSub_append_right {sub s : String} (t : String)
    (h : containsSub sub s = true) : containsSub sub (t ++ s) = true := by
  simpa [containsSub] using containsL_append_right t.data h

theorem containsSub_append_left {sub s : String} (t : String)
    (h : containsSub sub s = true) : containsSub sub (s ++ t) = true := by
  simpa [containsSub] using containsL_append_left t.data h

theorem join_cons (a : String) (l : List String) :
    String.join (a :: l) = a ++ String.join l := by
  have key : ∀ (l : List String) (x y : String),
      List.foldl (fun acc s => acc ++ s) (x ++ y) l =
        x ++ List.foldl (fun acc s => acc ++ s) y l := by
    intro l
    induction l with
    | nil => intro x y; rfl
    | cons b bs ih =>
      intro x y
      simp only [List.foldl_cons]
      rw [String.append_assoc]
      exact ih x (y ++ b)
  simpa [String.join] using key l a ""

theorem containsSub_join {sub x : String} {l : List String} (hx : x ∈ l)
    (h : containsSub sub x = true) : containsSub sub (String.join l) = true := by
  induction l with
  | nil => simp at hx
  | cons a as ih =>
    rw [join_cons]
    rcases List.mem_cons.mp hx with rfl | hx
    · exact containsSub_append_left _ h
    · exact containsSub_append_right _ (ih hx)

/-! ### Claim C9: intent classification of "who has the esp32" -/

/-- **C9.** The chat intent classifier, applied to the exact input
string "who has the esp32", yields intent type `who_has` and includes
`esp32` among the extracted component terms. -/
theorem claim_C9_intent_who_has_esp32 :
    (extract_query_intent "who has the esp32").type = "who_has" ∧
    "esp32" ∈ (extract_query_intent "who has the esp32").components := by
  decide

/-- **C4, counterexample.** The claim fails on the code: the query
"who has the esp32" contains the name of the inventory component
`ESP32` whose `available_quantity` is 0, yet the deterministic fallback
reply does not flag the component as out of stock (no "out of stock"
text, case-insensitively) and *does* state that the component is
available — the `who_has` branch answers
"✅ No one currently has 'esp32' borrowed. It should be available in
the inventory." whenever no active transaction matches. -/
theorem claim_C4_fallback_out_of_stock_cex :
    containsSub "out of stock" (lowerStr c4reply) = false ∧
    containsSub "should be available" c4reply = true ∧
    c4reply =
      "✅ No one currently has 'esp32' borrowed. It should be available in the inventory." := by
  decide

/-- A query classified `availability` contains none of the location
keywords, in particular not "where". -/
theorem no_where_of_availability {ql : String}
    (h : intentTypeOf ql = "availability") : containsSub "where" ql = false := by
  cases hcw : containsSub "where" ql with
  | false => rfl
  | true =>
    exfalso
    have hany : (["where", "location", "find", "located"].any
        (fun w => containsSub w ql)) = true := by
      simp [List.any, hcw]
    unfold intentTypeOf at h
    rw [if_pos hany] at h
    exact absurd h (by decide)

/-- **C4, amended.** For every chat query the intent classifier labels
`availability` (and that does not stray into the `who_has` branch via a
literal "who" and "has"), if a known inventory component with
`available_quantity = 0` matches one of the extracted search terms,
then the deterministic fallback reply flags that component as out of
stock (an "Out of stock" entry is rendered).  The original claim's
universal guarantee over *all* queries is refuted by
`claim_C4_fallback_out_of_stock_cex`: the `who_has` branch answers that
a zero-stock component with no active borrow "should be available". -/
theorem claim_C4_fallback_out_of_stock_amended
    (query : String) (inventory : InventoryCtx) (transactions : TxCtx)
    (stats : StatsCtx) (comp : CompInfo)
    (htype : (extract_query_intent query).type = "availability")
    (hwho : (containsSub "who" (lowerStr query) &&
             containsSub "has" (lowerStr query)) = false)
    (hmem : comp ∈ inventory.components)
    (hzero : comp.available = 0)
    (hmatch : (fallbackSearchTerms (lowerStr query)
        (extract_query_intent query)).any
        (fun term => containsSub term (lowerStr comp.name) ||
                     containsSub term (lowerStr comp.description)) = true) :
    containsSub "Out of stock"
      (generate_smart_fallback query (extract_query_intent query)
        inventory transactions stats) = true := by
  have h' : intentTypeOf (lowerStr query) = "availability" := htype
  have hwhere := no_where_of_availability h'
  have hb1 : (("availability" : String) == "location") = false := by decide
  have hb2 : (("availability" : String) == "who_has") = false := by decide
  have hb3 : (("availability" : String) == "availability") = true := by decide
  have hmemf : comp ∈ inventory.components.filter (fun c =>
      (fallbackSearchTerms (lowerStr query) (extract_query_intent query)).any
        (fun term => containsSub term (lowerStr c.name) ||
                     containsSub term (lowerStr c.description))) :=
    List.mem_filter.mpr ⟨hmem, hmatch⟩
  have hne : inventory.components.filter (fun c =>
      (fallbackSearchTerms (lowerStr query) (extract_query_intent query)).any
        (fun term => containsSub term (lowerStr c.name) ||
                     containsSub term (lowerStr c.description))) ≠ [] :=
    List.ne_nil_of_mem hmemf
  have hentry : containsSub "Out of stock"
      (availabilityEntry transactions.active comp) = true := by
    unfold availabilityEntry
    rw [if_neg (by omega : ¬ comp.available > 0)]
    have base : containsSub "Out of stock" "**: Out of stock (0/" = true := by
      decide
    exact containsSub_append_left _ (containsSub_append_left _
      (containsSub_append_left _ (containsSub_append_left _
        (containsSub_append_right _ base))))
  have hie : (inventory.components.filter (fun c =>
      (fallbackSearchTerms (lowerStr query) (extract_query_intent query)).any
        (fun term => containsSub term (lowerStr c.name) ||
                     containsSub term (lowerStr c.description)))).isEmpty = false := by
    simpa [List.isEmpty_iff] using hne
  unfold generate_smart_fallback
  simp only [htype, hb1, hb2, hb3, hwhere, hwho, Bool.false_or, Bool.or_false,
    Bool.true_or, Bool.or_true, if_true, if_false, hie, Bool.not_false]
  exact containsSub_append_right _
    (containsSub_join (List.mem_map_of_mem _ hmemf) hentry)

/-- Witness for `claim_C4_fallback_out_of_stock_amended`: the concrete
query "is the esp32 available" against `c4db`. -/
theorem claim_C4_fallback_out_of_stock_amended_witness :
    containsSub "Out of stock"
      (generate_smart_fallback "is the esp32 available"
        (extract_query_intent "is the esp32 available")
        (get_detailed_inventory_context c4db)
        (get_detailed_transactions_context c4db 100)
        (get_stats_context c4db 100)) = true :=
  claim_C4_fallback_out_of_stock_amended "is the esp32 available"
    (get_detailed_inventory_context c4db)
    (get_detailed_transactions_context c4db 100)
    (get_stats_context c4db 100)
    (compInfoOf c4comp)
    (by decide) (by decide) (by decide) (by decide) (by decide)

/-! ### Claim C5: creating a loan request -/

/-- **C5.** Creating a loan request requires the referenced component
to exist (404 otherwise, no side effect) and its `available_quantity`
to be at least the requested quantity: an over-ask is rejected with no
transaction document created and no stock change; a successful request
appends one `pending` transaction and leaves the components collection
(and hence every `available_quantity`) untouched. -/
theorem claim_C5_create_transaction_guard
    (db : DB) (data : TransactionCreate) (user : Caller) (now : Int)
    (c : Component)
    (hq : 1 ≤ data.quantity)
    (hc : findComponent db data.componentId = some c) :
    (c.availableQuantity < data.quantity →
       create_transaction db data user now = .error (.badRequest
         ("Insufficient quantity. Only " ++ toString c.availableQuantity ++
          " available.")) ∧
       applyOp db (.createTransaction data user now) = db) ∧
    (data.quantity ≤ c.availableQuantity →
       ∃ t, create_transaction db data user now =
           .ok ({ db with transactions := db.transactions ++ [t],
                          nextTid := db.nextTid + 1 }, t) ∧
         t.status = TransactionStatus.pending ∧
         t.quantity = data.quantity ∧
         t.componentId = data.componentId ∧
         (applyOp db (.createTransaction data user now)).components =
           db.components) ∧
    (∀ db2 : DB, findComponent db2 data.componentId = none →
       create_transaction db2 data user now =
         .error (.notFound "Component not found") ∧
       applyOp db2 (.createTransaction data user now) = db2) := by
  have hnv : ¬ (data.quantity < 1) := by omega
  refine ⟨?_, ?_, ?_⟩
  · intro hlt
    have he : create_transaction db data user now = .error (.badRequest
        ("Insufficient quantity. Only " ++ toString c.availableQuantity ++
         " available.")) := by
      simp only [create_transaction, if_neg hnv, hc, if_pos hlt]
    exact ⟨he, by simp [applyOp, he]⟩
  · intro hge
    have hok : create_transaction db data user now =
        .ok ({ db with
                 transactions := db.transactions ++ [pendingTransactionDoc db data user now c],
                 nextTid := db.nextTid + 1 },
             pendingTransactionDoc db data user now c) := by
      simp only [create_transaction, if_neg hnv, hc, if_neg (not_lt.mpr hge)]
    refine ⟨pendingTransactionDoc db data user now c, hok, rfl, rfl, rfl, ?_⟩
    simp [applyOp, hok]
  · intro db2 hnone
    have he : create_transaction db2 data user now =
        .error (.notFound "Component not found") := by
      simp only [create_transaction, if_neg hnv, hnone]
    exact ⟨he, by simp [applyOp, he]⟩

/-- Witness for `claim_C5_create_transaction_guard`: asking for 3 of a
component with 2 available is rejected and changes nothing. -/
theorem claim_C5_create_transaction_guard_witness :
    create_transaction c5db c5req c5user 0 =
      .error (.badRequest ("Insufficient quantity. Only " ++
        toString (2 : Int) ++ " available.")) ∧
    applyOp c5db (.createTransaction c5req c5user 0) = c5db :=
  (claim_C5_create_transaction_guard c5db c5req c5user 0 c5comp
      (by decide) (by decide)).1 (by decide)

/-! ### Claim C2: approve/return state guards -/

/-- **C2.** `approve` succeeds only from prior status `pending`, and
`return` succeeds only from prior status `issued` or `overdue`; from
any other starting status the operation answers the corresponding
business-rule error and leaves the whole state — the transaction and
the component's `available_quantity` — unchanged. -/
theorem claim_C2_transition_guards
    (db : DB) (tid : Nat) (dueDays : Int) (admin : Caller)
    (condition : String) (now : Int) (t : Transaction)
    (ht : findTransaction db tid = some t)
    (hdays : 1 ≤ dueDays ∧ dueDays ≤ 90)
    (hcond : 1 ≤ condition.length) :
    (∀ db' r, approve_transaction db tid dueDays admin now = .ok (db', r) →
        t.status = TransactionStatus.pending) ∧
    (t.status ≠ TransactionStatus.pending →
        approve_transaction db tid dueDays admin now =
          .error (.badRequest "Only pending transactions can be approved") ∧
        applyOp db (.approve tid dueDays admin now) = db) ∧
    (∀ db' r, return_component db tid condition now = .ok (db', r) →
        t.status = TransactionStatus.issued ∨
        t.status = TransactionStatus.overdue) ∧
    (t.status ≠ TransactionStatus.issued ∧
     t.status ≠ TransactionStatus.overdue →
        return_component db tid condition now =
          .error (.badRequest "Only issued or overdue components can be returned") ∧
        applyOp db (.adminReturn tid condition now) = db) := by
  have hdv : ¬ ((decide (dueDays < 1) || decide (dueDays > 90)) = true) := by
    simp only [Bool.or_eq_true, decide_eq_true_eq]
    omega
  have hcv : ¬ (condition.length < 1) := by omega
  have herrA : t.status ≠ TransactionStatus.pending →
      approve_transaction db tid dueDays admin now =
        .error (.badRequest "Only pending transactions can be approved") := by
    intro hnp
    simp only [approve_transaction, if_neg hdv, ht]
    rw [if_pos hnp]
  have herrR : t.status ≠ TransactionStatus.issued ∧
      t.status ≠ TransactionStatus.overdue →
      return_component db tid condition now =
        .error (.badRequest "Only issued or overdue components can be returned") := by
    intro hno
    simp only [return_component, if_neg hcv, ht]
    rw [if_pos hno]
  refine ⟨?_, ?_, ?_, ?_⟩
  · intro db' r hok
    by_contra hnp
    rw [herrA hnp] at hok
    cases hok
  · intro hnp
    exact ⟨herrA hnp, by simp [applyOp, herrA hnp]⟩
  · intro db' r hok
    by_contra hno
    push_neg at hno
    rw [herrR ⟨hno.1, hno.2⟩] at hok
    cases hok
  · intro hno
    exact ⟨herrR hno, by simp [applyOp, herrR hno]⟩

/-- Witness for `claim_C2_transition_guards`: approving or returning an
already-returned transaction fails and changes nothing. -/
theorem claim_C2_transition_guards_witness :
    (approve_transaction c2db 7 7 { id := "a1", name := "Adm", email := "a@x" } 10 =
      .error (.badRequest "Only pending transactions can be approved") ∧
     applyOp c2db (.approve 7 7 { id := "a1", name := "Adm", email := "a@x" } 10) = c2db) ∧
    (return_component c2db 7 "good" 10 =
      .error (.badRequest "Only issued or overdue components can be returned") ∧
     applyOp c2db (.adminReturn 7 "good" 10) = c2db) :=
  ⟨(claim_C2_transition_guards c2db 7 7
      { id := "a1", name := "Adm", email := "a@x" } "good" 10 c2tx
      (by decide) (by decide) (by decide)).2.1 (by decide),
   (claim_C2_transition_guards c2db 7 7
      { id := "a1", name := "Adm", email := "a@x" } "good" 10 c2tx
      (by decide) (by decide) (by decide)).2.2.2 (by decide)⟩

/-- **C6.** Deleting a component is refused — with no deletion and no
other side effect — whenever some transaction referencing it has
status `pending`, `approved` or `issued`; deleting a component all of
whose referencing transactions are `returned` or `rejected` succeeds
and removes exactly that component. -/
theorem claim_C6_delete_component_guard (db : DB) (cid : Nat) :
    ((∃ t ∈ db.transactions, t.componentId = cid ∧
        (t.status = TransactionStatus.pending ∨
         t.status = TransactionStatus.approved ∨
         t.status = TransactionStatus.issued)) →
      delete_component db cid =
        .error (.badRequest "Cannot delete component with active transactions") ∧
      applyOp db (.deleteComponent cid) = db) ∧
    ((∀ t ∈ db.transactions, t.componentId = cid →
        t.status = TransactionStatus.returned ∨
        t.status = TransactionStatus.rejected) →
      ∀ c, findComponent db cid = some c →
        delete_component db cid = .ok
          { db with components := removeFirst (fun x => x.cid == cid) db.components }) := by
  constructor
  · rintro ⟨t, htmem, hcid, hstat⟩
    cases hf : db.transactions.find? (activeTxFor cid) with
    | none =>
      exfalso
      have := List.find?_eq_none.mp hf t htmem
      apply this
      unfold activeTxFor
      rcases hstat with h | h | h <;>
        simp [hcid, h]
    | some u =>
      have he : delete_component db cid =
          .error (.badRequest "Cannot delete component with active transactions") := by
        unfold delete_component
        rw [show db.transactions.find? (fun t =>
            t.componentId == cid &&
            (t.status == TransactionStatus.pending ||
             t.status == TransactionStatus.approved ||
             t.status == TransactionStatus.issued)) =
            some u from hf]
      exact ⟨he, by simp [applyOp, he]⟩
  · intro hclean c hc
    have hf : db.transactions.find? (activeTxFor cid) = none := by
      apply List.find?_eq_none.mpr
      intro x hx
      unfold activeTxFor
      by_cases hxc : x.componentId = cid
      · rcases hclean x hx hxc with h | h <;> simp [hxc, h]
      · simp [beq_iff_eq, hxc]
    unfold delete_component
    rw [show db.transactions.find? (fun t =>
        t.componentId == cid &&
        (t.status == TransactionStatus.pending ||
         t.status == TransactionStatus.approved ||
         t.status == TransactionStatus.issued)) = none from hf]
    rw [hc]

/-- Witness for `claim_C6_delete_component_guard`: deletion is refused
while a `pending` transaction references the component, and succeeds
when the only referencing transaction is `returned`. -/
theorem claim_C6_delete_component_guard_witness :
    (delete_component c6dbActive 1 =
      .error (.badRequest "Cannot delete component with active transactions") ∧
     applyOp c6dbActive (.deleteComponent 1) = c6dbActive) ∧
    delete_component c6dbClean 1 = .ok
      { c6dbClean with
          components := removeFirst (fun x => x.cid == 1) c6dbClean.components } :=
  ⟨(claim_C6_delete_component_guard c6dbActive 1).1
      ⟨c6txPending, by decide, by decide, by decide⟩,
   (claim_C6_delete_component_guard c6dbClean 1).2
      (by decide) c5comp (by decide)⟩

/-- **C10.** Deleting a component succeeds even when a transaction
referencing it has status `overdue`: the active-transaction guard
matches only `pending`, `approved` and `issued`, so once every
referencing transaction is `overdue`, `returned` or `rejected` the
deletion goes through. -/
theorem claim_C10_delete_with_overdue (db : DB) (cid : Nat) (c : Component)
    (hclean : ∀ t ∈ db.transactions, t.componentId = cid →
        t.status = TransactionStatus.overdue ∨
        t.status = TransactionStatus.returned ∨
        t.status = TransactionStatus.rejected)
    (hc : findComponent db cid = some c) :
    delete_component db cid = .ok
      { db with components := removeFirst (fun x => x.cid == cid) db.components } := by
  have hf : db.transactions.find? (activeTxFor cid) = none := by
    apply List.find?_eq_none.mpr
    intro x hx
    unfold activeTxFor
    by_cases hxc : x.componentId = cid
    · rcases hclean x hx hxc with h | h | h <;> simp [hxc, h]
    · simp [beq_iff_eq, hxc]
  unfold delete_component
  rw [show db.transactions.find? (fun t =>
      t.componentId == cid &&
      (t.status == TransactionStatus.pending ||
       t.status == TransactionStatus.approved ||
       t.status == TransactionStatus.issued)) = none from hf]
  rw [hc]

/-- Witness for `claim_C10_delete_with_overdue`: an `overdue` loan does
not block deletion of its component. -/
theorem claim_C10_delete_with_overdue_witness :
    delete_component c10db 1 = .ok
      { c10db with
          components := removeFirst (fun x => x.cid == 1) c10db.components } :=
  claim_C10_delete_with_overdue c10db 1 c5comp (by decide) (by decide)

theorem create_component_txs {db : DB} {data : ComponentCreate}
    {user : Caller} {now : Int} {db' : DB} {c : Component}
    (h : create_component db data user now = .ok (db', c)) :
    db'.transactions = db.transactions := by
  unfold create_component at h
  split at h
  · cases h
  split at h
  · cases h
  split at h
  · cases h
  cases h
  rfl

theorem update_component_txs {db : DB} {cid : Nat} {u : ComponentUpdate}
    {now : Int} {db' : DB} {c : Component}
    (h : update_component db cid u now = .ok (db', c)) :
    db'.transactions = db.transactions := by
  unfold update_component at h
  split at h
  · cases h
  split at h
  · cases h
  split at h
  · cases h
  split at h
  · cases h
  · cases h
    rfl

theorem delete_component_ok {db : DB} {cid : Nat} {db' : DB}
    (h : delete_component db cid = .ok db') :
    db' = { db with
      components := removeFirst (fun x => x.cid == cid) db.components } := by
  unfold delete_component at h
  split at h
  · cases h
  split at h
  · cases h
  · cases h
    rfl

theorem create_transaction_ok {db : DB} {data : TransactionCreate}
    {user : Caller} {now : Int} {db' : DB} {t : Transaction}
    (h : create_transaction db data user now = .ok (db', t)) :
    ∃ comp, findComponent db data.componentId = some comp ∧
      1 ≤ data.quantity ∧
      data.quantity ≤ comp.availableQuantity ∧
      t = pendingTransactionDoc db data user now comp ∧
      db' = { db with transactions := db.transactions ++ [t],
                      nextTid := db.nextTid + 1 } := by
  unfold create_transaction at h
  split at h
  · cases h
  next hq =>
  split at h
  · cases h
  next comp hcomp =>
  split at h
  · cases h
  next hstock =>
  cases h
  exact ⟨comp, hcomp, by omega, by omega, rfl, rfl⟩

theorem approve_transaction_ok {db : DB} {tid : Nat} {dueDays : Int}
    {admin : Caller} {now : Int} {db' : DB} {r : Transaction}
    (h : approve_transaction db tid dueDays admin now = .ok (db', r)) :
    ∃ t comp, findTransaction db tid = some t ∧
      t.status = TransactionStatus.pending ∧
      findComponent db t.componentId = some comp ∧
      t.quantity ≤ comp.availableQuantity ∧
      r = approveSet dueDays admin now t ∧
      db' = { db with
        transactions := replaceFirst (fun x => x.tid == tid)
          (approveSet dueDays admin now) db.transactions,
        components := replaceFirst (fun c => c.cid == t.componentId)
          (fun c => { c with availableQuantity := c.availableQuantity - t.quantity })
          db.components } := by
  unfold approve_transaction at h
  split at h
  · cases h
  split at h
  · cases h
  next t ht =>
  split at h
  · cases h
  next hpend =>
  split at h
  · cases h
  next comp hcomp =>
  split at h
  · cases h
  next hstock =>
  cases h
  refine ⟨t, comp, ht, by simpa using hpend, hcomp, by omega, rfl, rfl⟩

theorem reject_transaction_ok {db : DB} {tid : Nat} {reason : Option String}
    {now : Int} {db' : DB} {r : Transaction}
    (h : reject_transaction db tid reason now = .ok (db', r)) :
    ∃ t, findTransaction db tid = some t ∧
      t.status = TransactionStatus.pending ∧
      r = rejectSet reason now t ∧
      db' = { db with
        transactions := replaceFirst (fun x => x.tid == tid)
          (rejectSet reason now) db.transactions } := by
  unfold reject_transaction at h
  split at h
  · cases h
  next t ht =>
  split at h
  · cases h
  next hpend =>
  cases h
  exact ⟨t, ht, by simpa using hpend, rfl, rfl⟩

theorem return_component_ok {db : DB} {tid : Nat} {condition : String}
    {now : Int} {db' : DB} {r : Transaction}
    (h : return_component db tid condition now = .ok (db', r)) :
    ∃ t, findTransaction db tid = some t ∧
      (t.status = TransactionStatus.issued ∨
       t.status = TransactionStatus.overdue) ∧
      r = returnSet condition now t ∧
      db' = { db with
        transactions := replaceFirst (fun x => x.tid == tid)
          (returnSet condition now) db.transactions,
        components := replaceFirst (fun c => c.cid == t.componentId)
          (fun c => { c with availableQuantity := c.availableQuantity + t.quantity })
          db.components } := by
  unfold return_component at h
  split at h
  · cases h
  split at h
  · cases h
  next t ht =>
  split at h
  · cases h
  next hst =>
  cases h
  refine ⟨t, ht, ?_, rfl, rfl⟩
  rcases Decidable.not_and_iff_or_not.mp hst with hs | hs
  · exact Or.inl (by simpa using hs)
  · exact Or.inr (by simpa using hs)

theorem borrow_component_ok {db : DB} {req : BorrowRequest} {now : Int}
    {db' : DB} {t : Transaction}
    (h : borrow_component db req now = .ok (db', t)) :
    ∃ comp, findComponent db req.componentId = some comp ∧
      1 ≤ req.quantity ∧
      req.quantity ≤ comp.availableQuantity ∧
      db.transactions.find? (kioskDuplicateFor req) = none ∧
      t = kioskTransactionDoc db req now comp ∧
      db' = { db with
        transactions := db.transactions ++ [t],
        components := replaceFirst (fun c => c.cid == req.componentId)
          (fun c => { c with availableQuantity := c.availableQuantity - req.quantity,
                             updatedAt := now }) db.components,
        nextTid := db.nextTid + 1 } := by
  unfold borrow_component at h
  split at h
  · cases h
  split at h
  · cases h
  split at h
  · cases h
  next hq =>
  split at h
  · cases h
  next comp hcomp =>
  split at h
  · cases h
  next hstock =>
  split at h
  · cases h
  next hdup =>
  cases h
  exact ⟨comp, hcomp, by omega, by omega, hdup, rfl, rfl⟩

theorem kiosk_return_component_ok {db : DB} {tid : Nat}
    {condition : Option String} {now : Int} {db' : DB} {r : Transaction}
    (h : kiosk_return_component db tid condition now = .ok (db', r)) :
    ∃ t, db.transactions.find? (fun x =>
        x.tid == tid && x.status == TransactionStatus.issued) = some t ∧
      t.status = TransactionStatus.issued ∧
      r = kioskReturnSet condition now t ∧
      db' = { db with
        transactions := replaceFirst (fun x => x.tid == tid)
          (kioskReturnSet condition now) db.transactions,
        components := replaceFirst (fun c => c.cid == t.componentId)
          (fun c => { c with availableQuantity := c.availableQuantity + t.quantity,
                             updatedAt := now }) db.components } := by
  unfold kiosk_return_component at h
  split at h
  · cases h
  next t ht =>
  cases h
  refine ⟨t, ht, ?_, rfl, rfl⟩
  have := List.find?_some ht
  simp only [Bool.and_eq_true, beq_transactionStatus, decide_eq_true_eq] at this
  exact this.2

theorem get_overdue_transactions_ok {db : DB} {now : Int} {db' : DB}
    {l : List Transaction}
    (h : get_overdue_transactions db now = .ok (db', l)) :
    db' = { db with transactions := db.transactions.map (overdueRewrite now) } := by
  unfold get_overdue_transactions at h
  cases h
  rfl

theorem find?_append_first {α} {p : α → Bool} {pre : List α} {x : α}
    (post : List α) (hpre : ∀ y ∈ pre, p y = false) (hx : p x = true) :
    (pre ++ x :: post).find? p = some x := by
  induction pre with
  | nil => simp [List.find?, hx]
  | cons a as ih =>
    have ha : p a = false := hpre a (by simp)
    simp only [List.cons_append, List.find?]
    rw [ha]
    exact ih (fun y hy => hpre y (List.mem_cons_of_mem _ hy))

/-! ### Claim C8: lazy `issued → overdue` rewrite -/

/-- **C8.** The `issued → overdue` transition is lazy: the admin
"list overdue" read path rewrites every stored `issued` transaction
whose `due_date` is before now to `overdue` (and touches nothing else),
no other endpoint ever produces an `overdue` status (every `overdue`
document after any other call was already stored `overdue` before it),
and the plain read path returns the stored document unchanged — a
transaction past its due date still reports `issued` there until the
overdue endpoint is hit. -/
theorem claim_C8_lazy_overdue (db : DB) (now : Int) :
    (∃ l, get_overdue_transactions db now =
        .ok ({ db with transactions := db.transactions.map (overdueRewrite now) }, l)) ∧
    (∀ t, t.status = TransactionStatus.issued → dueBefore now t = true →
       overdueRewrite now t =
         { t with status := TransactionStatus.overdue, updatedAt := now }) ∧
    (∀ t, (t.status == TransactionStatus.issued && dueBefore now t) = false →
       overdueRewrite now t = t) ∧
    (∀ op : Op, (∀ m : Int, op ≠ .listOverdue m) →
       ∀ t' ∈ (applyOp db op).transactions,
         t'.status = TransactionStatus.overdue → t' ∈ db.transactions) ∧
    (∀ tid t, findTransaction db tid = some t → get_transaction db tid = .ok t) := by
  refine ⟨⟨_, rfl⟩, ?_, ?_, ?_, ?_⟩
  · intro t hs hd
    unfold overdueRewrite
    rw [if_pos (by simp [hs, hd])]
  · intro t hcond
    unfold overdueRewrite
    rw [if_neg (by rw [hcond]; exact Bool.false_ne_true)]
  · intro op hop t' ht' hstat
    cases op with
    | createComponent data user m =>
      cases h : create_component db data user m with
      | error e => simpa [applyOp, h] using ht'
      | ok val =>
        obtain ⟨db2, c⟩ := val
        simp only [applyOp, h] at ht'
        rwa [create_component_txs h] at ht'
    | updateComponent cid u m =>
      cases h : update_component db cid u m with
      | error e => simpa [applyOp, h] using ht'
      | ok val =>
        obtain ⟨db2, c⟩ := val
        simp only [applyOp, h] at ht'
        rwa [update_component_txs h] at ht'
    | deleteComponent cid =>
      cases h : delete_component db cid with
      | error e => simpa [applyOp, h] using ht'
      | ok db2 =>
        simp only [applyOp, h] at ht'
        rw [delete_component_ok h] at ht'
        exact ht'
    | createTransaction data user m =>
      cases h : create_transaction db data user m with
      | error e => simpa [applyOp, h] using ht'
      | ok val =>
        obtain ⟨db2, t⟩ := val
        simp only [applyOp, h] at ht'
        obtain ⟨comp, _, _, _, hdoc, hdb2⟩ := create_transaction_ok h
        rw [hdb2] at ht'
        rcases List.mem_append.mp ht' with hmem | hmem
        · exact hmem
        · exfalso
          have : t' = t := by simpa using hmem
          rw [this, hdoc] at hstat
          simp [pendingTransactionDoc] at hstat
    | approve tid dueDays admin m =>
      cases h : approve_transaction db tid dueDays admin m with
      | error e => simpa [applyOp, h] using ht'
      | ok val =>
        obtain ⟨db2, r⟩ := val
        simp only [applyOp, h] at ht'
        obtain ⟨t, comp, _, _, _, _, _, hdb2⟩ := approve_transaction_ok h
        rw [hdb2] at ht'
        rcases mem_replaceFirst ht' with hmem | ⟨x, hx, _, hEq⟩
        · exact hmem
        · exfalso
          rw [hEq] at hstat
          simp [approveSet] at hstat
    | reject tid reason m =>
      cases h : reject_transaction db tid reason m with
      | error e => simpa [applyOp, h] using ht'
      | ok val =>
        obtain ⟨db2, r⟩ := val
        simp only [applyOp, h] at ht'
        obtain ⟨t, _, _, _, hdb2⟩ := reject_transaction_ok h
        rw [hdb2] at ht'
        rcases mem_replaceFirst ht' with hmem | ⟨x, hx, _, hEq⟩
        · exact hmem
        · exfalso
          rw [hEq] at hstat
          simp [rejectSet] at hstat
    | adminReturn tid condition m =>
      cases h : return_component db tid condition m with
      | error e => simpa [applyOp, h] using ht'
      | ok val =>
        obtain ⟨db2, r⟩ := val
        simp only [applyOp, h] at ht'
        obtain ⟨t, _, _, _, hdb2⟩ := return_component_ok h
        rw [hdb2] at ht'
        rcases mem_replaceFirst ht' with hmem | ⟨x, hx, _, hEq⟩
        · exact hmem
        · exfalso
          rw [hEq] at hstat
          simp [returnSet] at hstat
    | kioskBorrow req m =>
      cases h : borrow_component db req m with
      | error e => simpa [applyOp, h] using ht'
      | ok val =>
        obtain ⟨db2, t⟩ := val
        simp only [applyOp, h] at ht'
        obtain ⟨comp, _, _, _, _, hdoc, hdb2⟩ := borrow_component_ok h
        rw [hdb2] at ht'
        rcases List.mem_append.mp ht' with hmem | hmem
        · exact hmem
        · exfalso
          have : t' = t := by simpa using hmem
          rw [this, hdoc] at hstat
          simp [kioskTransactionDoc] at hstat
    | kioskReturn tid condition m =>
      cases h : kiosk_return_component db tid condition m with
      | error e => simpa [applyOp, h] using ht'
      | ok val =>
        obtain ⟨db2, r⟩ := val
        simp only [applyOp, h] at ht'
        obtain ⟨t, _, _, _, hdb2⟩ := kiosk_return_component_ok h
        rw [hdb2] at ht'
        rcases mem_replaceFirst ht' with hmem | ⟨x, hx, _, hEq⟩
        · exact hmem
        · exfalso
          rw [hEq] at hstat
          simp [kioskReturnSet] at hstat
    | listOverdue m => exact absurd rfl (hop m)
  · intro tid t ht
    unfold get_transaction
    rw [ht]

/-- Witness for `claim_C8_lazy_overdue`: the overdue read path rewrites
the past-due issued transaction, while the plain read still reports the
stored `issued` document. -/
theorem claim_C8_lazy_overdue_witness :
    (∃ l, get_overdue_transactions c8db 100 =
        .ok ({ c8db with
                 transactions := c8db.transactions.map (overdueRewrite 100) }, l)) ∧
    overdueRewrite 100 c8tx =
      { c8tx with status := TransactionStatus.overdue, updatedAt := 100 } ∧
    get_transaction c8db 21 = .ok c8tx :=
  ⟨(claim_C8_lazy_overdue c8db 100).1,
   (claim_C8_lazy_overdue c8db 100).2.1 c8tx (by decide) (by decide),
   (claim_C8_lazy_overdue c8db 100).2.2.2.2 21 c8tx (by decide)⟩

/-! ### Claim C7: kiosk duplicate-borrow guard -/

/-- **C7.** A kiosk borrow of component X by a roll number with a prior
`issued` loan of X is refused with the duplicate-borrow conflict error,
leaving the whole state (prior transaction and stock) unchanged; a
borrow of a different component Y by the same roll number is unaffected
and succeeds whenever Y exists, has stock, and carries no outstanding
loan by that roll number. -/
theorem claim_C7_kiosk_duplicate_borrow
    (db : DB) (reqX reqY : BorrowRequest) (now : Int) (cX : Component)
    (hvXroll : 1 ≤ reqX.rollNumber.length ∧ reqX.rollNumber.length ≤ 50)
    (hvXname : 1 ≤ reqX.name.length ∧ reqX.name.length ≤ 100)
    (hvXqty : 1 ≤ reqX.quantity)
    (hcX : findComponent db reqX.componentId = some cX)
    (hstockX : reqX.quantity ≤ cX.availableQuantity)
    (hprior : ∃ t ∈ db.transactions,
        t.rollNumber = some (upperStr reqX.rollNumber) ∧
        t.componentId = reqX.componentId ∧
        t.status = TransactionStatus.issued) :
    ((∃ q : Int, borrow_component db reqX now = .error (.badRequest
        ("You already have this component borrowed (Qty: " ++ toString q ++
         "). Please return it first."))) ∧
     applyOp db (.kioskBorrow reqX now) = db) ∧
    (∀ cY : Component,
      1 ≤ reqY.rollNumber.length ∧ reqY.rollNumber.length ≤ 50 →
      1 ≤ reqY.name.length ∧ reqY.name.length ≤ 100 →
      1 ≤ reqY.quantity →
      findComponent db reqY.componentId = some cY →
      reqY.quantity ≤ cY.availableQuantity →
      (∀ t ∈ db.transactions, ¬ (t.rollNumber = some (upperStr reqY.rollNumber) ∧
          t.componentId = reqY.componentId ∧
          t.status = TransactionStatus.issued)) →
      borrow_component db reqY now = .ok
        ({ db with
             transactions := db.transactions ++ [kioskTransactionDoc db reqY now cY],
             components := replaceFirst (fun c => c.cid == reqY.componentId)
               (fun c => { c with availableQuantity := c.availableQuantity - reqY.quantity,
                                  updatedAt := now }) db.components,
             nextTid := db.nextTid + 1 },
         kioskTransactionDoc db reqY now cY)) := by
  constructor
  · cases hf : db.transactions.find? (kioskDuplicateFor reqX) with
    | none =>
      exfalso
      obtain ⟨t, htmem, h1, h2, h3⟩ := hprior
      have := List.find?_eq_none.mp hf t htmem
      apply this
      unfold kioskDuplicateFor
      simp [h1, h2, h3]
    | some u =>
      have hv1 : ¬ ((decide (reqX.rollNumber.length < 1) ||
          decide (reqX.rollNumber.length > 50)) = true) := by
        simp only [Bool.or_eq_true, decide_eq_true_eq]; omega
      have hv2 : ¬ ((decide (reqX.name.length < 1) ||
          decide (reqX.name.length > 100)) = true) := by
        simp only [Bool.or_eq_true, decide_eq_true_eq]; omega
      have hv3 : ¬ (reqX.quantity < 1) := by omega
      have hv4 : ¬ (cX.availableQuantity < reqX.quantity) := by omega
      have he : borrow_component db reqX now = .error (.badRequest
          ("You already have this component borrowed (Qty: " ++
           toString u.quantity ++ "). Please return it first.")) := by
        simp only [borrow_component, if_neg hv1, if_neg hv2, if_neg hv3, hcX,
          if_neg hv4]
        rw [show db.transactions.find? (fun t =>
            t.rollNumber == some (upperStr reqX.rollNumber) &&
            t.componentId == reqX.componentId &&
            t.status == TransactionStatus.issued) = some u from hf]
      exact ⟨⟨u.quantity, he⟩, by simp [applyOp, he]⟩
  · intro cY hvYroll hvYname hvYqty hcY hstockY hnoY
    have hf : db.transactions.find? (kioskDuplicateFor reqY) = none := by
      apply List.find?_eq_none.mpr
      intro x hx
      unfold kioskDuplicateFor
      intro hcontra
      simp only [Bool.and_eq_true, beq_iff_eq, beq_transactionStatus,
        decide_eq_true_eq] at hcontra
      exact hnoY x hx ⟨hcontra.1.1, hcontra.1.2, hcontra.2⟩
    have hv1 : ¬ ((decide (reqY.rollNumber.length < 1) ||
        decide (reqY.rollNumber.length > 50)) = true) := by
      simp only [Bool.or_eq_true, decide_eq_true_eq]; omega
    have hv2 : ¬ ((decide (reqY.name.length < 1) ||
        decide (reqY.name.length > 100)) = true) := by
      simp only [Bool.or_eq_true, decide_eq_true_eq]; omega
    have hv3 : ¬ (reqY.quantity < 1) := by omega
    have hv4 : ¬ (cY.availableQuantity < reqY.quantity) := by omega
    simp only [borrow_component, if_neg hv1, if_neg hv2, if_neg hv3, hcY,
      if_neg hv4]
    rw [show db.transactions.find? (fun t =>
        t.rollNumber == some (upperStr reqY.rollNumber) &&
        t.componentId == reqY.componentId &&
        t.status == TransactionStatus.issued) = none from hf]

/-- Witness for `claim_C7_kiosk_duplicate_borrow`: the second borrow of
component 1 is refused and changes nothing, while borrowing component 2
succeeds. -/
theorem claim_C7_kiosk_duplicate_borrow_witness :
    ((∃ q : Int, borrow_component c7db c7reqX 10 = .error (.badRequest
        ("You already have this component borrowed (Qty: " ++ toString q ++
         "). Please return it first."))) ∧
     applyOp c7db (.kioskBorrow c7reqX 10) = c7db) ∧
    borrow_component c7db c7reqY 10 = .ok
      ({ c7db with
           transactions := c7db.transactions ++ [kioskTransactionDoc c7db c7reqY 10 c7compY],
           components := replaceFirst (fun c => c.cid == c7reqY.componentId)
             (fun c => { c with availableQuantity := c.availableQuantity - c7reqY.quantity,
                                updatedAt := 10 }) c7db.components,
           nextTid := c7db.nextTid + 1 },
       kioskTransactionDoc c7db c7reqY 10 c7compY) :=
  ⟨(claim_C7_kiosk_duplicate_borrow c7db c7reqX c7reqY 10 c5comp
      (by decide) (by decide) (by decide) (by decide) (by decide)
      ⟨c7txIssued, by decide, by decide, by decide, by decide⟩).1,
   (claim_C7_kiosk_duplicate_borrow c7db c7reqX c7reqY 10 c5comp
      (by decide) (by decide) (by decide) (by decide) (by decide)
      ⟨c7txIssued, by decide, by decide, by decide, by decide⟩).2 c7compY
      (by decide) (by decide) (by decide) (by decide) (by decide)
      (by decide)⟩

/-! ### Claim C3: the approve/return round trip -/

/-- **C3.** For a `pending` transaction of quantity `q` on a component
with `available_quantity ≥ q`, a successful approve decrements that
component's availability by exactly `q` (the component read back after
the approve carries `available - q`), and a subsequent successful
return of the same transaction increments it back by exactly `q`: the
components collection after the pair is identical to the pre-approval
one. -/
theorem claim_C3_approve_return_roundtrip
    (db : DB) (tid : Nat) (dueDays : Int) (admin : Caller)
    (condition : String) (now later : Int)
    (t : Transaction) (c : Component)
    (ht : findTransaction db tid = some t)
    (hpend : t.status = TransactionStatus.pending)
    (hc : findComponent db t.componentId = some c)
    (hstock : t.quantity ≤ c.availableQuantity)
    (hdays : 1 ≤ dueDays ∧ dueDays ≤ 90)
    (hcond : 1 ≤ condition.length) :
    ∃ db1 r1 db2 r2,
      approve_transaction db tid dueDays admin now = .ok (db1, r1) ∧
      findComponent db1 t.componentId =
        some { c with availableQuantity := c.availableQuantity - t.quantity } ∧
      return_component db1 tid condition later = .ok (db2, r2) ∧
      db2.components = db.components ∧
      r2.status = TransactionStatus.returned := by
  have hdv : ¬ ((decide (dueDays < 1) || decide (dueDays > 90)) = true) := by
    simp only [Bool.or_eq_true, decide_eq_true_eq]; omega
  have hcv : ¬ (condition.length < 1) := by omega
  have hpT : (t.tid == tid) = true := by simpa using List.find?_some ht
  have hpC : (c.cid == t.componentId) = true := by simpa using List.find?_some hc
  have htL : db.transactions.find? (fun x => x.tid == tid) = some t := ht
  have hcL : db.components.find? (fun x => x.cid == t.componentId) = some c := hc
  obtain ⟨preT, postT, hTdec, hTpre⟩ := find?_decomp htL
  obtain ⟨preC, postC, hCdec, hCpre⟩ := find?_decomp hcL
  have happrove : approve_transaction db tid dueDays admin now = .ok
      ({ db with
           transactions := replaceFirst (fun x => x.tid == tid)
             (approveSet dueDays admin now) db.transactions,
           components := replaceFirst (fun cc => cc.cid == t.componentId)
             (fun cc => { cc with availableQuantity := cc.availableQuantity - t.quantity })
             db.components },
       approveSet dueDays admin now t) := by
    simp only [approve_transaction, if_neg hdv, ht, if_neg (not_not_intro hpend),
      hc, if_neg (by omega : ¬ c.availableQuantity < t.quantity)]
    rfl
  have hTlist : replaceFirst (fun x => x.tid == tid)
      (approveSet dueDays admin now) db.transactions =
      preT ++ approveSet dueDays admin now t :: postT := by
    rw [hTdec]
    exact replaceFirst_append _ postT hTpre hpT
  have hClist : replaceFirst (fun cc => cc.cid == t.componentId)
      (fun cc => { cc with availableQuantity := cc.availableQuantity - t.quantity })
      db.components =
      preC ++ { c with availableQuantity := c.availableQuantity - t.quantity } :: postC := by
    rw [hCdec]
    exact replaceFirst_append _ postC hCpre hpC
  have hT1 : (preT ++ approveSet dueDays admin now t :: postT).find?
      (fun x => x.tid == tid) = some (approveSet dueDays admin now t) :=
    find?_append_first postT hTpre hpT
  have hC1 : (preC ++ { c with availableQuantity := c.availableQuantity - t.quantity } :: postC).find?
      (fun x => x.cid == t.componentId) =
      some { c with availableQuantity := c.availableQuantity - t.quantity } :=
    find?_append_first postC hCpre hpC
  set db1 : DB := { db with
    transactions := replaceFirst (fun x => x.tid == tid)
      (approveSet dueDays admin now) db.transactions,
    components := replaceFirst (fun cc => cc.cid == t.componentId)
      (fun cc => { cc with availableQuantity := cc.availableQuantity - t.quantity })
      db.components } with hdb1
  have hT1' : db1.transactions = preT ++ approveSet dueDays admin now t :: postT := by
    rw [hdb1]
    exact hTlist
  have hC1' : db1.components =
      preC ++ { c with availableQuantity := c.availableQuantity - t.quantity } :: postC := by
    rw [hdb1]
    exact hClist
  have hfind1 : findTransaction db1 tid = some (approveSet dueDays admin now t) := by
    unfold findTransaction
    rw [hT1']
    exact hT1
  have hdecc : findComponent db1 t.componentId =
      some { c with availableQuantity := c.availableQuantity - t.quantity } := by
    unfold findComponent
    rw [hC1']
    exact hC1
  have hguard : ¬ ((approveSet dueDays admin now t).status ≠ TransactionStatus.issued ∧
      (approveSet dueDays admin now t).status ≠ TransactionStatus.overdue) := by
    intro hcontra
    exact hcontra.1 rfl
  have hreturn : return_component db1 tid condition later = .ok
      ({ db1 with
           transactions := replaceFirst (fun x => x.tid == tid)
             (returnSet condition later) db1.transactions,
           components := replaceFirst (fun cc => cc.cid == t.componentId)
             (fun cc => { cc with availableQuantity := cc.availableQuantity + t.quantity })
             db1.components },
       returnSet condition later (approveSet dueDays admin now t)) := by
    simp only [return_component, if_neg hcv, hfind1, if_neg hguard]
    rfl
  have hpC2 : ((({ c with availableQuantity := c.availableQuantity - t.quantity } :
      Component)).cid == t.componentId) = true := hpC
  have hfinal : replaceFirst (fun cc => cc.cid == t.componentId)
      (fun cc => { cc with availableQuantity := cc.availableQuantity + t.quantity })
      db1.components = db.components := by
    rw [hC1', replaceFirst_append _ postC hCpre hpC2, hCdec]
    dsimp only
    rw [Int.sub_add_cancel]
  exact ⟨db1, approveSet dueDays admin now t, _, _, happrove, hdecc, hreturn,
    hfinal, rfl⟩

/-- Witness for `claim_C3_approve_return_roundtrip`: approving the
pending request for 3 of 5 drops availability to 2, returning restores
the original components collection. -/
theorem claim_C3_approve_return_roundtrip_witness :
    ∃ db1 r1 db2 r2,
      approve_transaction c3db 30 7
          { id := "a1", name := "Adm", email := "a@x" } 0 = .ok (db1, r1) ∧
      findComponent db1 c3tx.componentId =
        some { c3comp with
                 availableQuantity := c3comp.availableQuantity - c3tx.quantity } ∧
      return_component db1 30 "good" 3 = .ok (db2, r2) ∧
      db2.components = c3db.components ∧
      r2.status = TransactionStatus.returned :=
  claim_C3_approve_return_roundtrip c3db 30 7
    { id := "a1", name := "Adm", email := "a@x" } "good" 0 3 c3tx c3comp
    (by decide) (by decide) (by decide) (by decide) (by decide) (by decide)

theorem outstandingSum_append (cid : Nat) (xs ys : List Transaction) :
    outstandingSum cid (xs ++ ys) =
      outstandingSum cid xs + outstandingSum cid ys := by
  simp [outstandingSum]

theorem outstandingSum_cons (cid : Nat) (x : Transaction)
    (xs : List Transaction) :
    outstandingSum cid (x :: xs) = outContrib cid x + outstandingSum cid xs := by
  simp [outstandingSum]

theorem outContrib_nonneg (cid : Nat) {t : Transaction}
    (h : 1 ≤ t.quantity) : 0 ≤ outContrib cid t := by
  unfold outContrib
  split <;> omega

theorem outstandingSum_nonneg (cid : Nat) {xs : List Transaction}
    (h : ∀ t ∈ xs, 1 ≤ t.quantity) : 0 ≤ outstandingSum cid xs := by
  induction xs with
  | nil => simp [outstandingSum]
  | cons x rest ih =>
    rw [outstandingSum_cons]
    have h1 := outContrib_nonneg cid (h x (by simp))
    have h2 := ih (fun t ht => h t (List.mem_cons_of_mem _ ht))
    omega

theorem outContrib_of_pending (cid : Nat) {t : Transaction}
    (h : t.status = TransactionStatus.pending) : outContrib cid t = 0 := by
  simp [outContrib, h]

theorem outContrib_approveSet (cid : Nat) (dueDays : Int) (admin : Caller)
    (now : Int) (t : Transaction) :
    outContrib cid (approveSet dueDays admin now t) =
      if t.componentId = cid then t.quantity else 0 := by
  simp [outContrib, approveSet]

theorem outContrib_rejectSet (cid : Nat) (reason : Option String)
    (now : Int) (t : Transaction) :
    outContrib cid (rejectSet reason now t) = 0 := by
  simp [outContrib, rejectSet]

theorem outContrib_returnSet (cid : Nat) (condition : String) (now : Int)
    (t : Transaction) : outContrib cid (returnSet condition now t) = 0 := by
  simp [outContrib, returnSet]

theorem outContrib_kioskReturnSet (cid : Nat) (condition : Option String)
    (now : Int) (t : Transaction) :
    outContrib cid (kioskReturnSet condition now t) = 0 := by
  simp [outContrib, kioskReturnSet]

theorem outContrib_kioskDoc (cid : Nat) (db : DB) (req : BorrowRequest)
    (now : Int) (comp : Component) :
    outContrib cid (kioskTransactionDoc db req now comp) =
      if req.componentId = cid then req.quantity else 0 := by
  simp [outContrib, kioskTransactionDoc]

theorem outContrib_pendingDoc (cid : Nat) (db : DB)
    (data : TransactionCreate) (user : Caller) (now : Int)
    (comp : Component) :
    outContrib cid (pendingTransactionDoc db data user now comp) = 0 := by
  simp [outContrib, pendingTransactionDoc]

theorem outContrib_overdueRewrite (cid : Nat) (now : Int) (t : Transaction) :
    outContrib cid (overdueRewrite now t) = outContrib cid t := by
  unfold overdueRewrite
  split
  next hcond =>
    simp only [Bool.and_eq_true, beq_transactionStatus, decide_eq_true_eq] at hcond
    simp [outContrib, hcond.1]
  next => rfl

theorem outstandingSum_overdueRewrite (cid : Nat) (now : Int)
    (txs : List Transaction) :
    outstandingSum cid (txs.map (overdueRewrite now)) = outstandingSum cid txs := by
  induction txs with
  | nil => rfl
  | cons x rest ih =>
    simp only [List.map_cons, outstandingSum_cons, outContrib_overdueRewrite, ih]

/-- A `find?`-guided `replaceFirst` changes the outstanding sum by
exactly the found element's contribution delta. -/
theorem outstandingSum_replaceFirst {p : Transaction → Bool}
    {txs : List Transaction} {t : Transaction} (f : Transaction → Transaction)
    (ht : txs.find? p = some t) (cid : Nat) :
    outstandingSum cid (replaceFirst p f txs) =
      outstandingSum cid txs - outContrib cid t + outContrib cid (f t) := by
  obtain ⟨pre, post, hdec, hpre⟩ := find?_decomp ht
  have hp : p t = true := List.find?_some ht
  rw [hdec, replaceFirst_append f post hpre hp]
  rw [outstandingSum_append, outstandingSum_cons,
    outstandingSum_append, outstandingSum_cons]
  ring

/-- The invariant step for a component-quantity adjustment: if the
transaction rewrite moved the outstanding sum of `targetCid` by `δ` and
left every other component's sum alone, then adjusting the (unique)
`targetCid` component's availability by `-δ` re-establishes the
quantity equation, and its non-negativity follows from the handler's
guard. -/
theorem compInv_replace {comps : List Component}
    {txs txs' : List Transaction} (targetCid : Nat) (δ : Int)
    (f : Component → Component)
    (hf : ∀ cc, (f cc).cid = cc.cid ∧ (f cc).totalQuantity = cc.totalQuantity ∧
          (f cc).availableQuantity = cc.availableQuantity - δ)
    (hother : ∀ cid, cid ≠ targetCid →
      outstandingSum cid txs' = outstandingSum cid txs)
    (htarget : outstandingSum targetCid txs' =
      outstandingSum targetCid txs + δ)
    (hnodup : (comps.map (fun c => c.cid)).Nodup)
    (hinv : ∀ c ∈ comps, 0 ≤ c.availableQuantity ∧
       c.availableQuantity + outstandingSum c.cid txs = c.totalQuantity)
    (hguard : ∀ c ∈ comps, c.cid = targetCid → δ ≤ c.availableQuantity) :
    ∀ c ∈ replaceFirst (fun cc => cc.cid == targetCid) f comps,
      0 ≤ c.availableQuantity ∧
      c.availableQuantity + outstandingSum c.cid txs' = c.totalQuantity := by
  induction comps with
  | nil => simp [replaceFirst]
  | cons a rest ih =>
    by_cases hpa : (a.cid == targetCid) = true
    · have hacid : a.cid = targetCid := by simpa using hpa
      simp only [replaceFirst, hpa, if_true]
      intro c hcmem
      rcases List.mem_cons.mp hcmem with rfl | hcrest
      · obtain ⟨hfc, hft, hfa⟩ := hf a
        have hga := hguard a (by simp) hacid
        have hia := hinv a (by simp)
        refine ⟨by omega, ?_⟩
        rw [hfc, hft, hfa, hacid, htarget]
        rw [hacid] at hia
        omega
      · have hcmemo : c ∈ a :: rest := List.mem_cons_of_mem _ hcrest
        have hic := hinv c hcmemo
        have hcidne : c.cid ≠ targetCid := by
          intro hEq
          have hnm : a.cid ∉ rest.map (fun cc => cc.cid) :=
            (List.nodup_cons.mp (by simpa using hnodup)).1
          exact hnm (by
            rw [hacid, ← hEq]
            exact List.mem_map_of_mem _ hcrest)
        rw [hother c.cid hcidne]
        exact hic
    · simp only [replaceFirst, hpa, Bool.false_eq_true, if_false]
      intro c hcmem
      rcases List.mem_cons.mp hcmem with rfl | hcrest
      · have hic := hinv c (by simp)
        have hcidne : c.cid ≠ targetCid := by simpa using hpa
        rw [hother c.cid hcidne]
        exact hic
      · exact ih ((List.nodup_cons.mp (by simpa using hnodup)).2)
          (fun c hc => hinv c (List.mem_cons_of_mem _ hc))
          (fun c hc hcc => hguard c (List.mem_cons_of_mem _ hc) hcc)
          c hcrest

/-- The invariant is untouched when the transaction rewrite moves no
outstanding sum at all and the components are untouched. -/
theorem compInv_unchanged {comps : List Component}
    {txs txs' : List Transaction}
    (hsame : ∀ cid, outstandingSum cid txs' = outstandingSum cid txs)
    (hinv : ∀ c ∈ comps, 0 ≤ c.availableQuantity ∧
       c.availableQuantity + outstandingSum c.cid txs = c.totalQuantity) :
    ∀ c ∈ comps, 0 ≤ c.availableQuantity ∧
      c.availableQuantity + outstandingSum c.cid txs' = c.totalQuantity := by
  intro c hc
  rw [hsame c.cid]
  exact hinv c hc

/-- When the duplicate-free `_id` index finds a transaction through the
kiosk-return conjunction, the plain `_id` lookup finds the same
document. -/
theorem find?_tid_of_conj {txs : List Transaction} {tidv : Nat}
    {t : Transaction}
    (hN : (txs.map (fun x => x.tid)).Nodup)
    (ht : txs.find? (fun x =>
        x.tid == tidv && x.status == TransactionStatus.issued) = some t) :
    txs.find? (fun x => x.tid == tidv) = some t := by
  obtain ⟨pre, post, hdec, hpre⟩ := find?_decomp ht
  have htid : (t.tid == tidv) = true := by
    have := List.find?_some ht
    simp only [Bool.and_eq_true] at this
    exact this.1
  rw [hdec]
  apply find?_append_first post ?_ htid
  intro y hy
  by_contra hcon
  have hytid : y.tid = tidv := by
    cases hyt : (y.tid == tidv) with
    | false => exact absurd hyt hcon
    | true => simpa using hyt
  have httid : t.tid = tidv := by simpa using htid
  have hmapN : ((pre ++ t :: post).map (fun x => x.tid)).Nodup := by
    rw [← hdec]; exact hN
  rw [List.map_append, List.map_cons] at hmapN
  have hmid := (List.nodup_middle.mp hmapN)
  have : t.tid ∉ pre.map (fun x => x.tid) ++ post.map (fun x => x.tid) :=
    (List.nodup_cons.mp hmid).1
  apply this
  apply List.mem_append_left
  rw [httid, ← hytid]
  exact List.mem_map_of_mem _ hy

/-- With a duplicate-free key column, two rows with the same key are
the same row. -/
theorem eq_of_nodup_map {α β} {g : α → β} {l : List α}
    (h : (l.map g).Nodup) {x y : α} (hx : x ∈ l) (hy : y ∈ l)
    (hg : g x = g y) : x = y := by
  induction l with
  | nil => simp at hx
  | cons a rest ih =>
    have hno : g a ∉ rest.map g := (List.nodup_cons.mp (by simpa using h)).1
    rcases List.mem_cons.mp hx with rfl | hx' <;>
      rcases List.mem_cons.mp hy with rfl | hy'
    · rfl
    · exact absurd (hg ▸ List.mem_map_of_mem g hy') hno
    · exact absurd (hg ▸ List.mem_map_of_mem g hx') (by simpa [hg] using hno)
    · exact ih (List.nodup_cons.mp (by simpa using h)).2 hx' hy'

theorem overdueRewrite_quantity (now : Int) (t : Transaction) :
    (overdueRewrite now t).quantity = t.quantity := by
  unfold overdueRewrite
  split <;> rfl

theorem overdueRewrite_tid (now : Int) (t : Transaction) :
    (overdueRewrite now t).tid = t.tid := by
  unfold overdueRewrite
  split <;> rfl

/-- A cid-preserving `update_one` keeps the component key column
duplicate-free. -/
theorem nodup_cids_replaceFirst {p : Component → Bool}
    {f : Component → Component} (hf : ∀ x, (f x).cid = x.cid)
    {comps : List Component} (h : (comps.map (fun c => c.cid)).Nodup) :
    ((replaceFirst p f comps).map (fun c => c.cid)).Nodup := by
  rw [map_replaceFirst (fun c : Component => c.cid) hf]
  exact h

/-- A tid-preserving `update_one` keeps the transaction key column
duplicate-free. -/
theorem nodup_tids_replaceFirst {p : Transaction → Bool}
    {f : Transaction → Transaction} (hf : ∀ x, (f x).tid = x.tid)
    {txs : List Transaction} (h : (txs.map (fun t => t.tid)).Nodup) :
    ((replaceFirst p f txs).map (fun t => t.tid)).Nodup := by
  rw [map_replaceFirst (fun t : Transaction => t.tid) hf]
  exact h

/-- Every transaction-lifecycle endpoint call preserves database
well-formedness. -/
theorem consistent_applyOp {db : DB} {op : Op} (hc : ConsistentDB db)
    (hop : isTxOp op = true) : ConsistentDB (applyOp db op) := by
  obtain ⟨hinv, hqty, hcnd, htnd, htb⟩ := hc
  cases op with
  | createComponent data user m => simp [isTxOp] at hop
  | updateComponent cid u m => simp [isTxOp] at hop
  | deleteComponent cid =>
    cases h : delete_component db cid with
    | error e =>
      simp only [applyOp, h]
      exact ⟨hinv, hqty, hcnd, htnd, htb⟩
    | ok db2 =>
      simp only [applyOp, h]
      rw [delete_component_ok h]
      refine ⟨?_, hqty, ?_, htnd, htb⟩
      · intro c hcm
        exact hinv c ((removeFirst_sublist _ _).subset hcm)
      · exact List.Nodup.sublist
          ((removeFirst_sublist (fun x => x.cid == cid) db.components).map _) hcnd
  | createTransaction data user m =>
    cases h : create_transaction db data user m with
    | error e =>
      simp only [applyOp, h]
      exact ⟨hinv, hqty, hcnd, htnd, htb⟩
    | ok val =>
      obtain ⟨db2, t⟩ := val
      simp only [applyOp, h]
      obtain ⟨comp, hcomp, hq1, hstock, hdoc, hdb2⟩ := create_transaction_ok h
      subst hdb2
      refine ⟨?_, ?_, hcnd, ?_, ?_⟩
      · dsimp only
        apply compInv_unchanged ?_ hinv
        intro cid
        rw [outstandingSum_append, outstandingSum_cons, hdoc,
          outContrib_pendingDoc]
        simp [outstandingSum]
      · dsimp only
        intro x hx
        rcases List.mem_append.mp hx with hx | hx
        · exact hqty x hx
        · have hxt : x = t := by simpa using hx
          subst hxt
          rw [hdoc]
          simpa [pendingTransactionDoc] using hq1
      · dsimp only
        rw [List.map_append, List.nodup_append]
        refine ⟨htnd, by simp, ?_⟩
        intro a ha hb
        obtain ⟨x, hxm, rfl⟩ := List.mem_map.mp ha
        have hxb := htb x hxm
        have hat : x.tid = t.tid := by simpa using hb
        rw [hdoc] at hat
        simp only [pendingTransactionDoc] at hat
        omega
      · dsimp only
        intro x hx
        rcases List.mem_append.mp hx with hx | hx
        · have := htb x hx
          omega
        · have hxt : x = t := by simpa using hx
          subst hxt
          rw [hdoc]
          simp only [pendingTransactionDoc]
          omega
  | approve tid dueDays admin m =>
    cases h : approve_transaction db tid dueDays admin m with
    | error e =>
      simp only [applyOp, h]
      exact ⟨hinv, hqty, hcnd, htnd, htb⟩
    | ok val =>
      obtain ⟨db2, r⟩ := val
      simp only [applyOp, h]
      obtain ⟨t, comp, ht, hpend, hcomp, hstock, hr, hdb2⟩ :=
        approve_transaction_ok h
      subst hdb2
      have htmem : t ∈ db.transactions := List.mem_of_find?_eq_some ht
      have hcompmem : comp ∈ db.components := List.mem_of_find?_eq_some hcomp
      have hcompcid : comp.cid = t.componentId := by
        simpa using List.find?_some hcomp
      have hother : ∀ cid, cid ≠ t.componentId →
          outstandingSum cid (replaceFirst (fun x => x.tid == tid)
            (approveSet dueDays admin m) db.transactions) =
          outstandingSum cid db.transactions := by
        intro cid hne
        rw [outstandingSum_replaceFirst _ ht, outContrib_approveSet,
          outContrib_of_pending _ hpend, if_neg (fun hEq => hne hEq.symm)]
        ring
      have htarget : outstandingSum t.componentId
          (replaceFirst (fun x => x.tid == tid)
            (approveSet dueDays admin m) db.transactions) =
          outstandingSum t.componentId db.transactions + t.quantity := by
        rw [outstandingSum_replaceFirst _ ht, outContrib_approveSet,
          outContrib_of_pending _ hpend, if_pos rfl]
        ring
      have hguard : ∀ c ∈ db.components, c.cid = t.componentId →
          t.quantity ≤ c.availableQuantity := by
        intro c hcm hcid
        have hceq : c = comp :=
          eq_of_nodup_map hcnd hcm hcompmem (by rw [hcid, hcompcid])
        rw [hceq]
        exact hstock
      refine ⟨?_, ?_, ?_, ?_, ?_⟩
      · dsimp only
        exact compInv_replace t.componentId t.quantity _
          (fun cc => ⟨rfl, rfl, rfl⟩) hother htarget hcnd hinv hguard
      · dsimp only
        intro x hx
        rcases mem_replaceFirst hx with hm | ⟨x0, hx0, _, rfl⟩
        · exact hqty x hm
        · exact hqty x0 hx0
      · dsimp only
        exact nodup_cids_replaceFirst (by intro x; rfl) hcnd
      · dsimp only
        exact nodup_tids_replaceFirst (by intro x; rfl) htnd
      · dsimp only
        intro x hx
        rcases mem_replaceFirst hx with hm | ⟨x0, hx0, _, rfl⟩
        · exact htb x hm
        · exact htb x0 hx0
  | reject tid reason m =>
    cases h : reject_transaction db tid reason m with
    | error e =>
      simp only [applyOp, h]
      exact ⟨hinv, hqty, hcnd, htnd, htb⟩
    | ok val =>
      obtain ⟨db2, r⟩ := val
      simp only [applyOp, h]
      obtain ⟨t, ht, hpend, hr, hdb2⟩ := reject_transaction_ok h
      subst hdb2
      refine ⟨?_, ?_, hcnd, ?_, ?_⟩
      · dsimp only
        apply compInv_unchanged ?_ hinv
        intro cid
        rw [outstandingSum_replaceFirst _ ht, outContrib_rejectSet,
          outContrib_of_pending _ hpend]
        ring
      · dsimp only
        intro x hx
        rcases mem_replaceFirst hx with hm | ⟨x0, hx0, _, rfl⟩
        · exact hqty x hm
        · exact hqty x0 hx0
      · dsimp only
        exact nodup_tids_replaceFirst (by intro x; rfl) htnd
      · dsimp only
        intro x hx
        rcases mem_replaceFirst hx with hm | ⟨x0, hx0, _, rfl⟩
        · exact htb x hm
        · exact htb x0 hx0
  | adminReturn tid condition m =>
    cases h : return_component db tid condition m with
    | error e =>
      simp only [applyOp, h]
      exact ⟨hinv, hqty, hcnd, htnd, htb⟩
    | ok val =>
      obtain ⟨db2, r⟩ := val
      simp only [applyOp, h]
      obtain ⟨t, ht, hstat, hr, hdb2⟩ := return_component_ok h
      subst hdb2
      have htmem : t ∈ db.transactions := List.mem_of_find?_eq_some ht
      have hq1 := hqty t htmem
      have houtt : outContrib t.componentId t = t.quantity := by
        unfold outContrib
        rw [if_pos ⟨rfl, hstat⟩]
      have hother : ∀ cid, cid ≠ t.componentId →
          outstandingSum cid (replaceFirst (fun x => x.tid == tid)
            (returnSet condition m) db.transactions) =
          outstandingSum cid db.transactions := by
        intro cid hne
        have hzero : outContrib cid t = 0 := by
          unfold outContrib
          rw [if_neg (fun hh => hne hh.1.symm)]
        rw [outstandingSum_replaceFirst _ ht, outContrib_returnSet, hzero]
        ring
      have htarget : outstandingSum t.componentId
          (replaceFirst (fun x => x.tid == tid)
            (returnSet condition m) db.transactions) =
          outstandingSum t.componentId db.transactions + (- t.quantity) := by
        rw [outstandingSum_replaceFirst _ ht, outContrib_returnSet, houtt]
        ring
      have hguard : ∀ c ∈ db.components, c.cid = t.componentId →
          - t.quantity ≤ c.availableQuantity := by
        intro c hcm _
        have := (hinv c hcm).1
        omega
      refine ⟨?_, ?_, ?_, ?_, ?_⟩
      · dsimp only
        exact compInv_replace t.componentId (- t.quantity) _
          (fun cc => ⟨rfl, rfl, by ring⟩) hother htarget hcnd hinv hguard
      · dsimp only
        intro x hx
        rcases mem_replaceFirst hx with hm | ⟨x0, hx0, _, rfl⟩
        · exact hqty x hm
        · exact hqty x0 hx0
      · dsimp only
        exact nodup_cids_replaceFirst (by intro x; rfl) hcnd
      · dsimp only
        exact nodup_tids_replaceFirst (by intro x; rfl) htnd
      · dsimp only
        intro x hx
        rcases mem_replaceFirst hx with hm | ⟨x0, hx0, _, rfl⟩
        · exact htb x hm
        · exact htb x0 hx0
  | kioskBorrow req m =>
    cases h : borrow_component db req m with
    | error e =>
      simp only [applyOp, h]
      exact ⟨hinv, hqty, hcnd, htnd, htb⟩
    | ok val =>
      obtain ⟨db2, t⟩ := val
      simp only [applyOp, h]
      obtain ⟨comp, hcomp, hq1, hstock, hdup, hdoc, hdb2⟩ :=
        borrow_component_ok h
      subst hdb2
      have hcompmem : comp ∈ db.components := List.mem_of_find?_eq_some hcomp
      have hcompcid : comp.cid = req.componentId := by
        simpa using List.find?_some hcomp
      have hsumA : ∀ cid, outstandingSum cid (db.transactions ++ [t]) =
          outstandingSum cid db.transactions +
            (if req.componentId = cid then req.quantity else 0) := by
        intro cid
        rw [outstandingSum_append, outstandingSum_cons, hdoc,
          outContrib_kioskDoc]
        simp [outstandingSum]
      have hother : ∀ cid, cid ≠ req.componentId →
          outstandingSum cid (db.transactions ++ [t]) =
          outstandingSum cid db.transactions := by
        intro cid hne
        rw [hsumA, if_neg (fun hEq => hne hEq.symm)]
        ring
      have htarget : outstandingSum req.componentId (db.transactions ++ [t]) =
          outstandingSum req.componentId db.transactions + req.quantity := by
        rw [hsumA, if_pos rfl]
      have hguard : ∀ c ∈ db.components, c.cid = req.componentId →
          req.quantity ≤ c.availableQuantity := by
        intro c hcm hcid
        have hceq : c = comp :=
          eq_of_nodup_map hcnd hcm hcompmem (by rw [hcid, hcompcid])
        rw [hceq]
        exact hstock
      refine ⟨?_, ?_, ?_, ?_, ?_⟩
      · dsimp only
        exact compInv_replace req.componentId req.quantity _
          (fun cc => ⟨rfl, rfl, rfl⟩) hother htarget hcnd hinv hguard
      · dsimp only
        intro x hx
        rcases List.mem_append.mp hx with hx | hx
        · exact hqty x hx
        · have hxt : x = t := by simpa using hx
          subst hxt
          rw [hdoc]
          simpa [kioskTransactionDoc] using hq1
      · dsimp only
        exact nodup_cids_replaceFirst (by intro x; rfl) hcnd
      · dsimp only
        rw [List.map_append, List.nodup_append]
        refine ⟨htnd, by simp, ?_⟩
        intro a ha hb
        obtain ⟨x, hxm, rfl⟩ := List.mem_map.mp ha
        have hxb := htb x hxm
        have hat : x.tid = t.tid := by simpa using hb
        rw [hdoc] at hat
        simp only [kioskTransactionDoc] at hat
        omega
      · dsimp only
        intro x hx
        rcases List.mem_append.mp hx with hx | hx
        · have := htb x hx
          omega
        · have hxt : x = t := by simpa using hx
          subst hxt
          rw [hdoc]
          simp only [kioskTransactionDoc]
          omega
  | kioskReturn tid condition m =>
    cases h : kiosk_return_component db tid condition m with
    | error e =>
      simp only [applyOp, h]
      exact ⟨hinv, hqty, hcnd, htnd, htb⟩
    | ok val =>
      obtain ⟨db2, r⟩ := val
      simp only [applyOp, h]
      obtain ⟨t, htconj, hstat, hr, hdb2⟩ := kiosk_return_component_ok h
      subst hdb2
      have ht : db.transactions.find? (fun x => x.tid == tid) = some t :=
        find?_tid_of_conj htnd htconj
      have htmem : t ∈ db.transactions := List.mem_of_find?_eq_some ht
      have hq1 := hqty t htmem
      have houtt : outContrib t.componentId t = t.quantity := by
        unfold outContrib
        rw [if_pos ⟨rfl, Or.inl hstat⟩]
      have hother : ∀ cid, cid ≠ t.componentId →
          outstandingSum cid (replaceFirst (fun x => x.tid == tid)
            (kioskReturnSet condition m) db.transactions) =
          outstandingSum cid db.transactions := by
        intro cid hne
        have hzero : outContrib cid t = 0 := by
          unfold outContrib
          rw [if_neg (fun hh => hne hh.1.symm)]
        rw [outstandingSum_replaceFirst _ ht, outContrib_kioskReturnSet, hzero]
        ring
      have htarget : outstandingSum t.componentId
          (replaceFirst (fun x => x.tid == tid)
            (kioskReturnSet condition m) db.transactions) =
          outstandingSum t.componentId db.transactions + (- t.quantity) := by
        rw [outstandingSum_replaceFirst _ ht, outContrib_kioskReturnSet, houtt]
        ring
      have hguard : ∀ c ∈ db.components, c.cid = t.componentId →
          - t.quantity ≤ c.availableQuantity := by
        intro c hcm _
        have := (hinv c hcm).1
        omega
      refine ⟨?_, ?_, ?_, ?_, ?_⟩
      · dsimp only
        exact compInv_replace t.componentId (- t.quantity) _
          (fun cc => ⟨rfl, rfl, by ring⟩) hother htarget hcnd hinv hguard
      · dsimp only
        intro x hx
        rcases mem_replaceFirst hx with hm | ⟨x0, hx0, _, rfl⟩
        · exact hqty x hm
        · exact hqty x0 hx0
      · dsimp only
        exact nodup_cids_replaceFirst (by intro x; rfl) hcnd
      · dsimp only
        exact nodup_tids_replaceFirst (by intro x; rfl) htnd
      · dsimp only
        intro x hx
        rcases mem_replaceFirst hx with hm | ⟨x0, hx0, _, rfl⟩
        · exact htb x hm
        · exact htb x0 hx0
  | listOverdue m =>
    cases h : get_overdue_transactions db m with
    | error e =>
      exfalso
      simp [get_overdue_transactions] at h
    | ok val =>
      obtain ⟨db2, l⟩ := val
      simp only [applyOp, h]
      rw [get_overdue_transactions_ok h]
      refine ⟨?_, ?_, hcnd, ?_, ?_⟩
      · dsimp only
        exact compInv_unchanged (fun cid => outstandingSum_overdueRewrite cid m _) hinv
      · dsimp only
        intro x hx
        obtain ⟨x0, hx0, rfl⟩ := List.mem_map.mp hx
        rw [overdueRewrite_quantity]
        exact hqty x0 hx0
      · dsimp only
        rw [List.map_map]
        have hcongr : ((fun x => x.tid) ∘ overdueRewrite m) =
            (fun x : Transaction => x.tid) :=
          funext (overdueRewrite_tid m)
        rw [hcongr]
        exact htnd
      · dsimp only
        intro x hx
        obtain ⟨x0, hx0, rfl⟩ := List.mem_map.mp hx
        rw [overdueRewrite_tid]
        exact htb x0 hx0

/-- Well-formedness entails the quantity bounds of §3. -/
theorem consistent_bounds {db : DB} (hc : ConsistentDB db) :
    ∀ c ∈ db.components, 0 ≤ c.availableQuantity ∧
      c.availableQuantity ≤ c.totalQuantity := by
  obtain ⟨hinv, hqty, _, _, _⟩ := hc
  intro c hcm
  have h1 := hinv c hcm
  have h2 := outstandingSum_nonneg c.cid hqty
  exact ⟨h1.1, by omega⟩

theorem consistent_applyOps {db : DB} {ops : List Op} (hc : ConsistentDB db)
    (hops : ∀ op ∈ ops, isTxOp op = true) :
    ConsistentDB (applyOps db ops) := by
  induction ops generalizing db with
  | nil => exact hc
  | cons op rest ih =>
    exact ih (consistent_applyOp hc (hops op (by simp)))
      (fun o ho => hops o (List.mem_cons_of_mem _ ho))

/-- **C1, amended.** Starting from any well-formed database, after every
sequence of transaction-lifecycle operations (transaction
create/approve/reject/return, kiosk borrow/return, the overdue rewrite,
component delete) every component satisfies
`0 ≤ available_quantity ≤ total_quantity`.  The original claim also
covered component create/update with admin-supplied quantities; those
paths validate only `total_quantity ≥ 0` and `available_quantity ≥ 0`
separately and do not enforce `available ≤ total`
(see `claim_C1_quantity_invariant_cex`). -/
theorem claim_C1_quantity_invariant_amended (db : DB) (ops : List Op)
    (hdb : ConsistentDB db) (hops : ∀ op ∈ ops, isTxOp op = true) :
    ∀ c ∈ (applyOps db ops).components,
      0 ≤ c.availableQuantity ∧ c.availableQuantity ≤ c.totalQuantity :=
  consistent_bounds (consistent_applyOps hdb hops)

/-- **C1, counterexample.** The claim fails on the code: the mutating
path `create_component` accepts an admin-supplied payload with
`available_quantity = 10 > 5 = total_quantity` (Pydantic validates each
quantity only against `ge=0`) and stores the violating component, so
`0 ≤ available ≤ total` does not hold after every operation sequence. -/
theorem claim_C1_quantity_invariant_cex :
    create_component c1db0 c1data c1admin 0 =
      .ok ({ components := [c1comp], transactions := [],
             nextCid := 2, nextTid := 1 }, c1comp) ∧
    c1comp.totalQuantity < c1comp.availableQuantity :=
  ⟨rfl, by decide⟩

/-- Witness for `claim_C1_quantity_invariant_amended`: after an
approve/overdue-rewrite/return sequence on `c1wdb`, the component sits
in the final state within its bounds (the membership hypothesis is
evaluated through the whole operation sequence). -/
theorem claim_C1_quantity_invariant_amended_witness :
    0 ≤ c1wcomp.availableQuantity ∧
    c1wcomp.availableQuantity ≤ c1wcomp.totalQuantity :=
  claim_C1_quantity_invariant_amended c1wdb
    [Op.approve 40 7 { id := "a1", name := "Adm", email := "a@x" } 0,
     Op.listOverdue 50,
     Op.adminReturn 40 "good" 60]
    ⟨by decide, by decide, by decide, by decide, by decide⟩ (by decide)
    c1wcomp (by decide)

end LogGPT

